import Mathlib

/-!
Verification of the AI-Vida clinical-document ingestion service.

This file gives a shallow embedding, in Lean 4, of the ingestion pipeline of
the AI-Vida backend (upload intake with SHA-256 deduplication and the
document status machine, the PDF quality-score extractor, the text
normalizer's abbreviation expansion, the HL7 v2 segment parser, and the FHIR
bundle mapper), together with theorems settling the specification's claims
about that code.

Conventions of the embedding:
- Python strings are modelled as Lean `String` / `List Char`; the Python
  string operations used by the source (`str.split`, `str.strip`,
  `str.replace`, `str.lower`, `str.upper`, `str.title`, `str.isupper`,
  `str.istitle`, `str.count`, substring membership) are reimplemented
  faithfully for the ASCII inputs the service handles.
- Python `dict`-shaped JSON payloads are modelled by the inductive `Json`;
  dynamic-typing failures (calling `.get` on a non-dict) are modelled as
  raised exceptions, i.e. `Except.error`.
- The relational store is modelled as an explicit state (`DB`) of document,
  medication and appointment rows; `created_at` timestamps and generated row
  ids are drawn from one strictly increasing counter, and the SQL comparison
  `patient_id = $1` follows SQL `NULL` semantics (`NULL = x` never matches).
- Numeric quality scores (Python floats) are modelled as exact rationals.
- Fallible Python code returns `Except`; background-task failure points are
  made explicit parameters.
-/

namespace AIVida

/-! ## JSON values (Python dict-shaped payloads) -/

/-- A JSON-like Python value, as carried inside FHIR bundle entries. -/
inductive Json where
  | null : Json
  | bool (b : Bool) : Json
  | num (n : Int) : Json
  | str (s : String) : Json
  | arr (elems : List Json) : Json
  | obj (fields : List (String × Json)) : Json

/-- First value bound to a key in an association list (Python dict lookup). -/
def assocLookup (key : String) : List (String × Json) → Option Json
  | [] => none
  | (k, v) :: rest => if k = key then some v else assocLookup key rest

/-- Python truthiness of a JSON value (`bool(x)`). -/
def Json.truthy : Json → Bool
  | .null => false
  | .bool b => b
  | .num n => n ≠ 0
  | .str s => s ≠ ""
  | .arr l => !l.isEmpty
  | .obj l => !l.isEmpty

/-- Is the value a JSON object (a Python dict)? -/
def Json.isObj : Json → Bool
  | .obj _ => true
  | _ => false

/-- Fields of an object, empty for non-objects. -/
def Json.objFields : Json → List (String × Json)
  | .obj l => l
  | _ => []

/-! ## Python string primitives over `List Char` -/

/-- ASCII lowercase of one character (`str.lower`). -/
def lowerC (c : Char) : Char :=
  if 'A' ≤ c ∧ c ≤ 'Z' then Char.ofNat (c.toNat + 32) else c

/-- ASCII uppercase of one character (`str.upper`). -/
def upperC (c : Char) : Char :=
  if 'a' ≤ c ∧ c ≤ 'z' then Char.ofNat (c.toNat - 32) else c

/-- Is the character an ASCII letter (a cased character)? -/
def isAlphaC (c : Char) : Bool :=
  ('a' ≤ c ∧ c ≤ 'z') ∨ ('A' ≤ c ∧ c ≤ 'Z')

/-- Is the character an ASCII uppercase letter? -/
def isUpperC (c : Char) : Bool := 'A' ≤ c ∧ c ≤ 'Z'

/-- Is the character an ASCII lowercase letter? -/
def isLowerC (c : Char) : Bool := 'a' ≤ c ∧ c ≤ 'z'

/-- Is the character an ASCII letter or digit (`str.isalnum` on ASCII)? -/
def isAlnumC (c : Char) : Bool :=
  isAlphaC c ∨ ('0' ≤ c ∧ c ≤ '9')

/-- Python whitespace characters relevant to `str.split()` / `str.strip()`. -/
def isWsC (c : Char) : Bool :=
  c = ' ' ∨ c = '\t' ∨ c = '\n' ∨ c = '\x0d' ∨ c = '\x0b' ∨ c = '\x0c'

/-- Lowercase a character list (`str.lower`). -/
def toLowerL (s : List Char) : List Char := s.map lowerC

/-- Uppercase a character list (`str.upper`). -/
def toUpperL (s : List Char) : List Char := s.map upperC

/-- Drop leading characters belonging to `set` (`str.lstrip(set)`). -/
def dropLeading (set : List Char) : List Char → List Char
  | [] => []
  | c :: rest => if c ∈ set then dropLeading set rest else c :: rest

/-- Python `str.strip(set)`: drop leading and trailing characters of `set`. -/
def pyStripChars (set : List Char) (s : List Char) : List Char :=
  ((dropLeading set ((dropLeading set s).reverse)).reverse)

/-- Python `str.strip()` with no argument: strip whitespace. -/
def pyStripWs (s : List Char) : List Char :=
  pyStripChars [' ', '\t', '\n', '\x0d', '\x0b', '\x0c'] s

/-- Python `str.strip()` at the string level. -/
def stripS (s : String) : String := String.mk (pyStripWs s.toList)

/-- Split on a single separator character, keeping empty pieces
(Python `str.split(sep)` for a one-character separator). -/
def splitOnCGo (sep : Char) (cur : List Char) : List Char → List (List Char)
  | [] => [cur.reverse]
  | c :: rest =>
    if c = sep then cur.reverse :: splitOnCGo sep [] rest
    else splitOnCGo sep (c :: cur) rest

/-- Python `str.split(sep)` for a one-character separator. -/
def splitOnC (sep : Char) (s : List Char) : List (List Char) :=
  splitOnCGo sep [] s

/-- Python `str.split(sep)` at the string level. -/
def splitOnS (sep : Char) (s : String) : List String :=
  (splitOnC sep s.toList).map String.mk

/-- Python slicing `s[:n]` at the string level. -/
def takeS (n : Nat) (s : String) : String := String.mk (s.toList.take n)

/-- Does `p` occur at the start of `s`? (`str.startswith`). -/
def startsWithL : List Char → List Char → Bool
  | _, [] => true
  | [], _ :: _ => false
  | c :: s, p :: ps => c = p && startsWithL s ps

/-- Python `str.split()` with no argument: the maximal whitespace-free runs,
with no empty words. -/
def splitWs (s : List Char) : List (List Char) :=
  (s.splitOnP isWsC).filter (fun w => !w.isEmpty)

/-- Fuelled engine of Python `str.replace`: at each position either consume
the whole matched pattern and emit the replacement, or copy one character. -/
def pyReplaceGo (pat repl : List Char) : Nat → List Char → List Char
  | _, [] => []
  | 0, s => s
  | fuel + 1, c :: rest =>
    if startsWithL (c :: rest) pat then
      repl ++ pyReplaceGo pat repl fuel (rest.drop (pat.length - 1))
    else
      c :: pyReplaceGo pat repl fuel rest

/-- Python `str.replace(pat, repl)` for the non-degenerate case: replace
every (left-to-right, non-overlapping) occurrence of `pat`.  The Python
behaviour for an empty pattern is not needed by the source; an empty
pattern leaves the string unchanged here.  The fuel of the engine only
bounds recursion depth: one unit per consumed position suffices, since a
match consumes at least one character. -/
def pyReplace (pat repl s : List Char) : List Char :=
  if pat.isEmpty then s else pyReplaceGo pat repl s.length s

/-- Does `pat` occur anywhere in `s`? (Python `pat in s`). -/
def occursIn (pat : List Char) : List Char → Bool
  | [] => pat.isEmpty
  | c :: rest => startsWithL (c :: rest) pat || occursIn pat rest

/-- Fuelled engine of Python `str.count(pat)` for a non-empty pattern. -/
def countOccGo (pat : List Char) : Nat → List Char → Nat
  | _, [] => 0
  | 0, _ => 0
  | fuel + 1, c :: rest =>
    if startsWithL (c :: rest) pat then
      1 + countOccGo pat fuel (rest.drop (pat.length - 1))
    else
      countOccGo pat fuel rest

/-- Python `str.count(pat)` for a non-empty pattern: number of
non-overlapping occurrences, counted left to right. -/
def countOcc (pat s : List Char) : Nat :=
  if pat.isEmpty then 0 else countOccGo pat s.length s

/-- Python `str.title()`: uppercase every letter that follows a non-letter,
lowercase every other letter. -/
def pyTitleGo : Bool → List Char → List Char
  | _, [] => []
  | prevAlpha, c :: rest =>
    if isAlphaC c then
      (if prevAlpha then lowerC c else upperC c) :: pyTitleGo true rest
    else
      c :: pyTitleGo false rest

/-- Python `str.title()` on a character list. -/
def pyTitle (s : List Char) : List Char := pyTitleGo false s

/-- Python `str.isupper()`: some cased character, and no lowercase one. -/
def pyIsUpper (s : List Char) : Bool :=
  s.any isAlphaC && !s.any isLowerC

/-- Helper for `pyIsTitle` (Python `str.istitle()`): scan tracking whether
the previous character was cased, failing on a misplaced case. -/
def pyIsTitleScan : Bool → List Char → Bool
  | _, [] => true
  | prevCased, c :: rest =>
    if isUpperC c then !prevCased && pyIsTitleScan true rest
    else if isLowerC c then prevCased && pyIsTitleScan true rest
    else pyIsTitleScan false rest

/-- Python `str.istitle()` on a character list. -/
def pyIsTitle (s : List Char) : Bool :=
  s.any isAlphaC && pyIsTitleScan false s

/-! ## TextProcessor: medical abbreviation expansion
(src/backend/ingestion-service/processors/text_processor.py) -/

/-- The fixed abbreviation lookup table of `TextProcessor`
(`self.medical_abbreviations`). -/
def medicalAbbreviations : List (String × String) :=
  [("pt", "patient"), ("dx", "diagnosis"), ("tx", "treatment"),
   ("rx", "prescription"), ("hx", "history"), ("sx", "symptoms"),
   ("f/u", "follow-up"), ("w/", "with"), ("w/o", "without"),
   ("c/o", "complains of"), ("r/o", "rule out"), ("s/p", "status post"),
   ("bid", "twice daily"), ("tid", "three times daily"),
   ("qid", "four times daily"), ("prn", "as needed"), ("po", "by mouth"),
   ("iv", "intravenous"), ("im", "intramuscular"), ("sc", "subcutaneous")]

/-- Punctuation set used by `_expand_abbreviations` when cleaning a token
(the Python literal in `word.lower().strip('.,!?;:')`). -/
def abbrevPunct : List Char := ['.', ',', '!', '?', ';', ':']

/-- The lowercased, punctuation-stripped form of a token (`clean_word`). -/
def cleanWord (w : List Char) : List Char :=
  pyStripChars abbrevPunct (toLowerL w)

/-- Table lookup for a cleaned token. -/
def abbrevLookup (k : List Char) : Option String :=
  medicalAbbreviations.lookup (String.mk k)

/-- The case adjustment of `_expand_abbreviations`: an all-caps token
uppercases the expansion, a title-case token titlecases it. -/
def caseAdjust (w r0 : List Char) : List Char :=
  if pyIsUpper w then toUpperL r0
  else if pyIsTitle w then pyTitle r0
  else r0

/-- The loop body of `TextProcessor._expand_abbreviations`: expand one
whitespace-delimited token by substituting the case-adjusted expansion for
the occurrences of the lowercased cleaned form inside the original token
(`word.replace(clean_word, replacement)`). -/
def expandWord (w : List Char) : List Char :=
  match abbrevLookup (cleanWord w) with
  | none => w
  | some repl => pyReplace (cleanWord w) (caseAdjust w repl.toList) w

/-- `TextProcessor._expand_abbreviations`: split on whitespace, expand each
token, join the results with single spaces. -/
def expandAbbreviations (text : List Char) : List Char :=
  List.intercalate [' '] ((splitWs text).map expandWord)

/-- String-level wrapper of `expandAbbreviations`. -/
def expandAbbreviationsS (s : String) : String :=
  String.mk (expandAbbreviations s.toList)

/-! ## HL7 parser (src/backend/ingestion-service/routers/hl7.py) -/

/-- A parsed HL7 segment: its 3-letter type code, the raw line, and the
named fields decoded by the per-segment-type table
(`HL7Parser._parse_*_segment`). -/
structure SegmentData where
  segType : String
  raw : String
  props : List (String × String)
deriving Repr, DecidableEq

/-- Field access used throughout the segment parsers:
`fields[i] if len(fields) > i else ""`. -/
def getFld (fields : List String) (i : Nat) : String :=
  fields.getD i ""

/-- `HL7Parser._parse_msh_segment`. -/
def parseMSH (fields : List String) : List (String × String) :=
  if 12 ≤ fields.length then
    [("sending_application", getFld fields 3),
     ("sending_facility", getFld fields 4),
     ("receiving_application", getFld fields 5),
     ("receiving_facility", getFld fields 6),
     ("timestamp", getFld fields 7),
     ("message_type", getFld fields 9),
     ("message_control_id", getFld fields 10),
     ("processing_id", getFld fields 11)]
  else []

/-- `HL7Parser._parse_evn_segment`. -/
def parseEVN (fields : List String) : List (String × String) :=
  if 3 ≤ fields.length then
    [("event_type", getFld fields 1),
     ("recorded_date", getFld fields 2),
     ("operator_id", getFld fields 5)]
  else []

/-- `HL7Parser._parse_pid_segment`: patient id is the first `^`-component of
field 3, the name splits field 5 into last/first components. -/
def parsePID (fields : List String) : List (String × String) :=
  if 6 ≤ fields.length then
    let patientId := (splitOnS '^' (getFld fields 3)).headD ""
    let nameComponents := splitOnS '^' (getFld fields 5)
    [("patient_id", patientId),
     ("last_name", nameComponents.getD 0 ""),
     ("first_name", nameComponents.getD 1 ""),
     ("dob", getFld fields 7),
     ("gender", getFld fields 8),
     ("address", getFld fields 11),
     ("phone", getFld fields 13)]
  else []

/-- `HL7Parser._parse_pv1_segment`. -/
def parsePV1 (fields : List String) : List (String × String) :=
  if 20 ≤ fields.length then
    [("patient_class", getFld fields 2),
     ("assigned_location", getFld fields 3),
     ("admission_type", getFld fields 4),
     ("attending_doctor", getFld fields 7),
     ("admit_date", getFld fields 44),
     ("discharge_date", getFld fields 45)]
  else []

/-- `HL7Parser._parse_obx_segment`. -/
def parseOBX (fields : List String) : List (String × String) :=
  if 6 ≤ fields.length then
    [("set_id", getFld fields 1),
     ("value_type", getFld fields 2),
     ("observation_id", getFld fields 3),
     ("observation_value", getFld fields 5),
     ("units", getFld fields 6),
     ("reference_range", getFld fields 7),
     ("abnormal_flags", getFld fields 8)]
  else []

/-- `HL7Parser._parse_dg1_segment`. -/
def parseDG1 (fields : List String) : List (String × String) :=
  if 4 ≤ fields.length then
    [("set_id", getFld fields 1),
     ("diagnosis_code", getFld fields 3),
     ("diagnosis_description", getFld fields 4),
     ("diagnosis_type", getFld fields 6)]
  else []

/-- Dispatch on the 3-letter segment type (`_parse_segment`'s if-chain);
unrecognised types decode no named fields. -/
def segProps (st : String) (fields : List String) : List (String × String) :=
  if st = "MSH" then parseMSH fields
  else if st = "EVN" then parseEVN fields
  else if st = "PID" then parsePID fields
  else if st = "PV1" then parsePV1 fields
  else if st = "OBX" then parseOBX fields
  else if st = "DG1" then parseDG1 fields
  else []

/-- `HL7Parser._parse_segment`: `None` for a line shorter than 3 characters
(no type code), otherwise a segment keyed by the first 3 characters, with
fields split on the `|` separator. -/
def parseSegment (line : String) : Option SegmentData :=
  if line.length < 3 then none
  else
    let st := takeS 3 line
    some { segType := st, raw := line, props := segProps st (splitOnS '|' line) }

/-- Value stored under one segment type: a single segment, or an ordered
list once the type repeats in the message. -/
inductive SegVal where
  | one (s : SegmentData) : SegVal
  | many (l : List SegmentData) : SegVal
deriving Repr, DecidableEq

/-- Append a repeated segment (`segments[segment_type].append`), converting
a single entry into a two-element list the first time the type repeats. -/
def SegVal.push (v : SegVal) (s : SegmentData) : SegVal :=
  match v with
  | .one a => .many [a, s]
  | .many l => .many (l ++ [s])

/-- Insert one parsed segment into the (insertion-ordered) segment map,
collapsing repeats of one type into a list under that key. -/
def insertSeg (m : List (String × SegVal)) (s : SegmentData) : List (String × SegVal) :=
  match m with
  | [] => [(s.segType, .one s)]
  | (k, v) :: rest =>
    if k = s.segType then (k, v.push s) :: rest
    else (k, v) :: insertSeg rest s

/-- The loop body of `HL7Parser.parse_message` over one raw line: strip it,
skip it when empty or too short, otherwise insert the parsed segment. -/
def parseLineStep (m : List (String × SegVal)) (line : String) : List (String × SegVal) :=
  match parseSegment (stripS line) with
  | none => m
  | some sd => insertSeg m sd

/-- `HL7Parser.parse_message` restricted to an already-split line list. -/
def parseLines (lines : List String) : List (String × SegVal) :=
  lines.foldl parseLineStep []

/-- `HL7Parser.parse_message`: strip the message, split it into lines, and
fold them into the segment map.  Total: no input raises. -/
def parseMessage (content : String) : List (String × SegVal) :=
  parseLines (splitOnS '\n' (stripS content))

/-- Lookup in the segment map. -/
def lookupSeg : List (String × SegVal) → String → Option SegVal
  | [], _ => none
  | (k, v) :: rest, t => if k = t then some v else lookupSeg rest t

/-- The segments held by one stored value. -/
def segsOfVal : SegVal → List SegmentData
  | .one s => [s]
  | .many l => l

/-- All segments stored under a type key, in stored order. -/
def segsOf (m : List (String × SegVal)) (t : String) : List SegmentData :=
  ((lookupSeg m t).map segsOfVal).getD []

/-! ## PDFParser: quality-scored extraction
(src/backend/ingestion-service/processors/pdf_parser.py) -/

/-- The fixed medical-terminology list of
`PDFParser._calculate_quality_score`. -/
def medicalTerms : List String :=
  ["patient", "medication", "doctor", "hospital", "diagnosis",
   "treatment", "discharge", "follow-up", "appointment", "dosage",
   "symptoms", "condition", "therapy", "prescription", "clinical"]

/-- Characters exempt from the special-character penalty (the Python
literal `' .,!?\n\t-'`). -/
def allowedSpecials : List Char := [' ', '.', ',', '!', '?', '\n', '\t', '-']

/-- `PDFParser._calculate_quality_score`, with the Python float arithmetic
carried out in exact rationals: length bonus capped at 10, half a point per
medical-term hit, sentence and paragraph structure bonuses, and a 0.5
multiplier when more than 30% of characters are special. -/
def qualityScore (t : List Char) : ℚ :=
  if (pyStripWs t).isEmpty then 0
  else
    let lengthBonus : ℚ := min ((t.length : ℚ) / 1000) 10
    let lower := toLowerL t
    let medicalScore : ℚ :=
      ((medicalTerms.filter (fun term => occursIn term.toList lower)).length : ℚ)
    let sentences : ℚ := (t.count '.' : ℚ)
    let paragraphs : ℚ := (countOcc ['\n', '\n'] t : ℚ)
    let score := lengthBonus + medicalScore * (1 / 2) + sentences / 100 + paragraphs / 10
    let specialChars :=
      (t.filter (fun c => !isAlnumC c && !(c ∈ allowedSpecials))).length
    let specialRatio : ℚ := (specialChars : ℚ) / ((max t.length 1 : Nat) : ℚ)
    if specialRatio > 3 / 10 then score * (1 / 2) else score

/-- The selection step of Python `max(results, key=...)`: keep the current
best unless the challenger scores strictly higher (so the earliest maximal
candidate wins). -/
def pickBetter (best x : List Char) : List Char :=
  if qualityScore best < qualityScore x then x else best

/-- The candidate list of `PDFParser.extract_text`: each trial method
either raised (`none`) or returned text, listed in the fixed trial order
(pdfplumber, PyPDF2, raw decode); results with non-empty stripped text
become candidates. -/
def candidatesOf (methodResults : List (Option (List Char))) : List (List Char) :=
  (methodResults.filterMap id).filter (fun t => !(pyStripWs t).isEmpty)

/-- `PDFParser.extract_text` selection: the highest-scoring candidate's
text (`max(results, key=...)`), an error when no candidate exists. -/
def extractText (methodResults : List (Option (List Char))) : Except String (List Char) :=
  match candidatesOf methodResults with
  | [] => .error "Unable to extract text from PDF using any method"
  | c :: cs => .ok (cs.foldl pickBetter c)

/-- The earliest maximum of a candidate list: `r` occurs after a prefix of
strictly lower-scoring candidates and no candidate scores above it.  This is
the specification's selection rule (highest score wins, ties broken by the
fixed trial order). -/
def FirstMax (l : List (List Char)) (r : List Char) : Prop :=
  ∃ p s, l = p ++ r :: s ∧ (∀ x ∈ p, qualityScore x < qualityScore r) ∧
    ∀ x ∈ l, qualityScore x ≤ qualityScore r


/-! ## SHA-256 (`hashlib.sha256(content).hexdigest()`), over `Nat` mod 2^32 -/

/-- Addition modulo 2^32. -/
def add32 (a b : Nat) : Nat := (a + b) % 4294967296

/-- Right rotation of a 32-bit word. -/
def rotr32 (n x : Nat) : Nat :=
  (x >>> n) ||| ((x % (2 ^ n)) <<< (32 - n))

/-- Bitwise complement of a 32-bit word. -/
def not32 (x : Nat) : Nat := x ^^^ 4294967295

/-- SHA-256 big sigma 0. -/
def bsig0 (x : Nat) : Nat := rotr32 2 x ^^^ rotr32 13 x ^^^ rotr32 22 x

/-- SHA-256 big sigma 1. -/
def bsig1 (x : Nat) : Nat := rotr32 6 x ^^^ rotr32 11 x ^^^ rotr32 25 x

/-- SHA-256 small sigma 0. -/
def ssig0 (x : Nat) : Nat := rotr32 7 x ^^^ rotr32 18 x ^^^ (x >>> 3)

/-- SHA-256 small sigma 1. -/
def ssig1 (x : Nat) : Nat := rotr32 17 x ^^^ rotr32 19 x ^^^ (x >>> 10)

/-- SHA-256 choice function. -/
def sha256ch (e f g : Nat) : Nat := (e &&& f) ^^^ (not32 e &&& g)

/-- SHA-256 majority function. -/
def sha256maj (a b c : Nat) : Nat := (a &&& b) ^^^ (a &&& c) ^^^ (b &&& c)

/-- The 64 SHA-256 round constants. -/
def sha256K : List Nat :=
  [1116352408, 1899447441, 3049323471, 3921009573, 961987163, 1508970993,
   2453635748, 2870763221, 3624381080, 310598401, 607225278, 1426881987,
   1925078388, 2162078206, 2614888103, 3248222580, 3835390401, 4022224774,
   264347078, 604807628, 770255983, 1249150122, 1555081692, 1996064986,
   2554220882, 2821834349, 2952996808, 3210313671, 3336571891, 3584528711,
   113926993, 338241895, 666307205, 773529912, 1294757372, 1396182291,
   1695183700, 1986661051, 2177026350, 2456956037, 2730485921, 2820302411,
   3259730800, 3345764771, 3516065817, 3600352804, 4094571909, 275423344,
   430227734, 506948616, 659060556, 883997877, 958139571, 1322822218,
   1537002063, 1747873779, 1955562222, 2024104815, 2227730452, 2361852424,
   2428436474, 2756734187, 3204031479, 3329325298]

/-- The SHA-256 initial hash state. -/
def sha256H0 : List Nat :=
  [1779033703, 3144134277, 1013904242, 2773480762,
   1359893119, 2600822924, 528734635, 1541459225]

/-- Big-endian 8-byte encoding of the message bit length. -/
def bigEndian8 (n : Nat) : List Nat :=
  [(n >>> 56) % 256, (n >>> 48) % 256, (n >>> 40) % 256, (n >>> 32) % 256,
   (n >>> 24) % 256, (n >>> 16) % 256, (n >>> 8) % 256, n % 256]

/-- SHA-256 padding: append 128, zero bytes up to 56 mod 64, and the
64-bit big-endian bit length. -/
def sha256pad (msg : List Nat) : List Nat :=
  let L := msg.length
  msg ++ [128] ++ List.replicate ((119 - L % 64) % 64) 0 ++ bigEndian8 (8 * L)

/-- Accumulate bytes into 64-byte chunks (`cur` holds the bytes of the
current chunk in reverse, `n` its size). -/
def chunksGo (cur : List Nat) (n : Nat) : List Nat → List (List Nat)
  | [] => if cur.isEmpty then [] else [cur.reverse]
  | b :: rest =>
    if n = 63 then (b :: cur).reverse :: chunksGo [] 0 rest
    else chunksGo (b :: cur) (n + 1) rest

/-- Split a byte list into 64-byte chunks. -/
def chunks64 (l : List Nat) : List (List Nat) := chunksGo [] 0 l

/-- Combine bytes into big-endian 32-bit words. -/
def wordsBE : List Nat → List Nat
  | b0 :: b1 :: b2 :: b3 :: rest =>
    ((b0 <<< 24) + (b1 <<< 16) + (b2 <<< 8) + b3) :: wordsBE rest
  | _ => []

/-- Message-schedule extension, over a newest-first accumulator. -/
def scheduleGo : List Nat → Nat → List Nat
  | acc, 0 => acc
  | acc, n + 1 =>
    let w :=
      add32 (add32 (ssig1 (acc.getD 1 0)) (acc.getD 6 0))
        (add32 (ssig0 (acc.getD 14 0)) (acc.getD 15 0))
    scheduleGo (w :: acc) n

/-- Extend the 16 chunk words to the 64-entry message schedule. -/
def sha256schedule (ws : List Nat) : List Nat :=
  (scheduleGo ws.reverse 48).reverse

/-- One SHA-256 compression round over the 8-word working state. -/
def compressStep (st : List Nat) (kw : Nat × Nat) : List Nat :=
  match st with
  | [a, b, c, d, e, f, g, h] =>
    let t1 := add32 (add32 (add32 h (bsig1 e)) (add32 (sha256ch e f g) kw.1)) kw.2
    let t2 := add32 (bsig0 a) (sha256maj a b c)
    [add32 t1 t2, a, b, c, add32 d t1, e, f, g]
  | other => other

/-- Process one 64-byte chunk into the running hash state. -/
def sha256chunk (H : List Nat) (chunk : List Nat) : List Nat :=
  let st := (sha256K.zip (sha256schedule (wordsBE chunk))).foldl compressStep H
  (H.zip st).map (fun p => add32 p.1 p.2)

/-- SHA-256 of a byte list, as the list of 8 hash words. -/
def sha256words (msg : List Nat) : List Nat :=
  (chunks64 (sha256pad msg)).foldl sha256chunk sha256H0

/-- Lowercase hex digit. -/
def hexDigit (n : Nat) : Char :=
  if n < 10 then Char.ofNat (48 + n) else Char.ofNat (87 + n)

/-- Lowercase 8-digit hex rendering of a 32-bit word. -/
def word8hex (w : Nat) : List Char :=
  [hexDigit ((w >>> 28) % 16), hexDigit ((w >>> 24) % 16),
   hexDigit ((w >>> 20) % 16), hexDigit ((w >>> 16) % 16),
   hexDigit ((w >>> 12) % 16), hexDigit ((w >>> 8) % 16),
   hexDigit ((w >>> 4) % 16), hexDigit (w % 16)]

/-- SHA-256 hex digest of raw bytes (`hashlib.sha256(...).hexdigest()`). -/
def sha256hex (msg : List Nat) : String :=
  String.mk ((sha256words msg).foldr (fun w acc => word8hex w ++ acc) [])

/-! ## Strict UTF-8 decoding (`bytes.decode('utf-8')`) -/

/-- Is the byte a UTF-8 continuation byte? -/
def isCont (b : Nat) : Bool := 128 ≤ b ∧ b < 192

/-- Strict UTF-8 decoding of a byte list, `none` on any invalid, overlong,
surrogate or out-of-range sequence (Python `bytes.decode('utf-8')` raising
`UnicodeDecodeError`). -/
def utf8Decode : List Nat → Option (List Char)
  | [] => some []
  | b :: rest =>
    if b < 128 then
      (utf8Decode rest).map (fun l => Char.ofNat b :: l)
    else if b < 194 then none
    else if b < 224 then
      match rest with
      | b1 :: rest2 =>
        if isCont b1 then
          (utf8Decode rest2).map (fun l => Char.ofNat ((b - 192) * 64 + (b1 - 128)) :: l)
        else none
      | [] => none
    else if b < 240 then
      match rest with
      | b1 :: b2 :: rest2 =>
        if isCont b1 && isCont b2 && (b ≠ 224 || 160 ≤ b1) && (b ≠ 237 || b1 < 160) then
          (utf8Decode rest2).map
            (fun l => Char.ofNat ((b - 224) * 4096 + (b1 - 128) * 64 + (b2 - 128)) :: l)
        else none
      | _ => none
    else if b < 245 then
      match rest with
      | b1 :: b2 :: b3 :: rest2 =>
        if isCont b1 && isCont b2 && isCont b3 &&
            (b ≠ 240 || 144 ≤ b1) && (b ≠ 244 || b1 < 144) then
          (utf8Decode rest2).map
            (fun l =>
              Char.ofNat ((b - 240) * 262144 + (b1 - 128) * 4096 +
                (b2 - 128) * 64 + (b3 - 128)) :: l)
        else none
      | _ => none
    else none

/-- Strict UTF-8 decoding to a `String`. -/
def utf8DecodeStr (bs : List Nat) : Option String :=
  (utf8Decode bs).map String.mk

/-! ## Base64 decoding (`base64.b64decode`, default non-validating mode) -/

/-- Value of one base64 alphabet character. -/
def b64Val (c : Char) : Option Nat :=
  if 'A' ≤ c ∧ c ≤ 'Z' then some (c.toNat - 65)
  else if 'a' ≤ c ∧ c ≤ 'z' then some (c.toNat - 71)
  else if '0' ≤ c ∧ c ≤ '9' then some (c.toNat + 4)
  else if c = '+' then some 62
  else if c = '/' then some 63
  else none

/-- Decode base64 quartets; padding (`=`) only ends the data. -/
def b64Groups : List Char → Option (List Nat)
  | [] => some []
  | c0 :: c1 :: c2 :: c3 :: rest =>
    match b64Val c0, b64Val c1 with
    | some v0, some v1 =>
      if c2 = '=' then
        if c3 = '=' ∧ rest = [] then some [v0 * 4 + v1 / 16] else none
      else
        match b64Val c2 with
        | some v2 =>
          if c3 = '=' then
            if rest = [] then some [v0 * 4 + v1 / 16, (v1 % 16) * 16 + v2 / 4]
            else none
          else
            match b64Val c3 with
            | some v3 =>
              (b64Groups rest).map
                (fun bs =>
                  (v0 * 4 + v1 / 16) :: ((v1 % 16) * 16 + v2 / 4) ::
                    ((v2 % 4) * 64 + v3) :: bs)
            | none => none
        | none => none
    | _, _ => none
  | _ => none

/-- Python `base64.b64decode` on a text argument: the argument must be
ASCII; characters outside the alphabet are discarded before the padding
check; improper padding fails. -/
def b64decode (s : List Char) : Option (List Nat) :=
  if s.any (fun c => 128 ≤ c.toNat) then none
  else
    let kept := s.filter (fun c => (b64Val c).isSome || c = '=')
    if kept.length % 4 = 0 then b64Groups kept else none

/-! ## Relational store state
(asyncpg tables `discharge_summaries`, `medications`, `appointments`) -/

/-- Document status enumeration (`models.discharge.DocumentStatus`). -/
inductive DocStatus where
  | pending
  | processing
  | completed
  | failed
  | reviewed
  | published
deriving Repr, DecidableEq

/-- One `discharge_summaries` row.  `id` is the generated key and doubles as
the creation stamp: every insert draws it from one strictly increasing
counter, so `ORDER BY created_at DESC` is modelled as largest `id` first. -/
structure Doc where
  id : Nat
  patient : Option String
  admission : Option String
  content : String
  source : String
  fileHash : Option String
  status : DocStatus
  processedAt : Option Nat
deriving Repr, DecidableEq

/-- One `medications` row. -/
structure Med where
  id : Nat
  docId : Nat
  name : String
  dosage : String
  frequency : String
  rxnorm : Option String
deriving Repr, DecidableEq

/-- One `appointments` row. -/
structure Appt where
  id : Nat
  docId : Nat
  apptType : String
  provider : String
  start : Option String
deriving Repr, DecidableEq

/-- The store: three tables plus the id/timestamp counter. -/
structure DB where
  docs : List Doc
  meds : List Med
  appts : List Appt
  next : Nat
deriving Repr, DecidableEq

/-- The empty store.  The counter starts at 1 so generated ids are always
truthy, as the database-generated UUID keys of the source are. -/
def dbEmpty : DB := ⟨[], [], [], 1⟩

/-- Store sanity: every stored document was created before the counter's
current value.  Every operation below preserves this. -/
def WFdb (db : DB) : Prop := ∀ d ∈ db.docs, d.id < db.next

/-- The SQL comparison `patient_id = $1` under `NULL` semantics: a `NULL`
on either side never matches. -/
def sqlEqPatient (stored param : Option String) : Bool :=
  match stored, param with
  | some a, some b => a = b
  | _, _ => false

/-- The query `SELECT id FROM discharge_summaries WHERE patient_id = $1
ORDER BY created_at DESC LIMIT 1`: the matching row with the largest
creation stamp. -/
def mostRecentFor (docs : List Doc) (p : Option String) : Option Doc :=
  docs.foldl
    (fun acc d =>
      if sqlEqPatient d.patient p then
        match acc with
        | none => some d
        | some a => if a.id ≤ d.id then some d else some a
      else acc)
    none

/-- Insert a `discharge_summaries` row, returning the generated id. -/
def insertDoc (db : DB) (patient admission : Option String) (content source : String)
    (fileHash : Option String) (status : DocStatus) : DB × Nat :=
  let d : Doc :=
    { id := db.next, patient := patient, admission := admission, content := content,
      source := source, fileHash := fileHash, status := status, processedAt := none }
  ({ db with docs := db.docs ++ [d], next := db.next + 1 }, db.next)

/-- Insert a `medications` row, returning the generated id. -/
def insertMed (db : DB) (docId : Nat) (name dosage frequency : String)
    (rxnorm : Option String) : DB × Nat :=
  let m : Med :=
    { id := db.next, docId := docId, name := name, dosage := dosage,
      frequency := frequency, rxnorm := rxnorm }
  ({ db with meds := db.meds ++ [m], next := db.next + 1 }, db.next)

/-- Insert an `appointments` row, returning the generated id. -/
def insertAppt (db : DB) (docId : Nat) (apptType provider : String)
    (start : Option String) : DB × Nat :=
  let a : Appt :=
    { id := db.next, docId := docId, apptType := apptType, provider := provider,
      start := start }
  ({ db with appts := db.appts ++ [a], next := db.next + 1 }, db.next)

/-! ## Upload intake (src/backend/ingestion-service/routers/upload.py) -/

/-- Errors surfaced by `upload_discharge_document`, mirroring its
`HTTPException` classes: 400 unsupported type, 413 oversize, 409 duplicate
conflict, 500 processing failure. -/
inductive UploadErr where
  | badRequest (detail : String)
  | tooLarge
  | conflict (detail : String)
  | serverError (detail : String)
deriving Repr, DecidableEq

/-- `settings.allowed_file_types`. -/
def allowedFileTypes : List String := ["pdf", "txt", "json"]

/-- `settings.max_file_size` (10 MB). -/
def maxFileSize : Nat := 10 * 1024 * 1024

/-- Lowercase a string. -/
def toLowerS (s : String) : String := String.mk (toLowerL s.toList)

/-- `file.filename.split('.')[-1].lower()`: the declared extension. -/
def extOf (filename : String) : String :=
  toLowerS ((splitOnS '.' filename).getLastD "")

/-- Outcomes of the external extraction collaborators for one upload: the
three PDF trial methods (`none` = the method raised), and the result of
`TextProcessor.process_json` on the raw bytes for the structured path
(whose JSON-rendering internals are outside the claims verified here). -/
structure ExtractEnv where
  pdfResults : List (Option (List Char))
  jsonOutcome : Except String String

/-- The content-processing dispatch of `upload_discharge_document` (lines
89-100): PDF through the scored extractor, `txt` through strict UTF-8
decoding (`content.decode('utf-8')`, raising on invalid bytes), `json`
through the structured path. -/
def extractContent (ext : String) (content : List Nat) (env : ExtractEnv) :
    Except String String :=
  if ext = "pdf" then (extractText env.pdfResults).map String.mk
  else if ext = "txt" then
    match utf8DecodeStr content with
    | some s => .ok s
    | none => .error "UnicodeDecodeError"
  else if ext = "json" then env.jsonOutcome
  else .error "Unsupported file type"

/-- The `source_system or "file_upload"` default of the upload handler. -/
def sourceName (srcSys : Option String) : String :=
  match srcSys with
  | some s => if s = "" then "file_upload" else s
  | none => "file_upload"

/-- `upload_discharge_document`: extension check, size check, SHA-256
dedup check against existing rows, extraction, then insert of a `pending`
document (`source_system or "file_upload"`).  Every failure path leaves
the store untouched. -/
def uploadDocument (db : DB) (filename : String) (content : List Nat)
    (patient admission srcSys : Option String) (env : ExtractEnv) :
    Except UploadErr (DB × Nat) :=
  if ¬ allowedFileTypes.contains (extOf filename) then
    .error (.badRequest "Unsupported file type")
  else if maxFileSize < content.length then
    .error .tooLarge
  else if db.docs.any (fun d => d.fileHash = some (sha256hex content)) then
    .error (.conflict "Document already exists in the system")
  else
    match extractContent (extOf filename) content env with
    | .error _ => .error (.serverError "Error processing upload")
    | .ok text =>
      .ok (insertDoc db patient admission text (sourceName srcSys)
        (some (sha256hex content)) .pending)

/-! ## Background finalize (`_process_document_background`) -/

/-- The unconditional `UPDATE ... SET status = 'processing'`. -/
def setProcessing (d : Doc) : Doc := { d with status := .processing }

/-- The unconditional `UPDATE ... SET status = 'completed',
processed_at = NOW()`. -/
def setCompleted (t : Nat) (d : Doc) : Doc :=
  { d with status := .completed, processedAt := some t }

/-- The error handler's unconditional `UPDATE ... SET status = 'failed'`. -/
def setFailed (d : Doc) : Doc := { d with status := .failed }

/-- Where the body of `_process_document_background` raised, if anywhere:
acquiring the first connection or issuing the `processing` update; the
enrichment step between the two updates; or acquiring the second connection
or issuing the `completed` update. -/
inductive BgFailure where
  | beforeProcessing
  | duringEnrichment
  | atCompletion
deriving Repr, DecidableEq

/-- The successive states of one document under the background finalize
task: the committed updates of the body up to the failure point (if any),
then the error handler's `failed` update (which itself only commits when its
own connection succeeds, `handlerOk`). -/
def backgroundTrace (d : Doc) (t : Nat) (fail : Option BgFailure) (handlerOk : Bool) :
    List Doc :=
  match fail with
  | none => [d, setProcessing d, setCompleted t (setProcessing d)]
  | some .beforeProcessing => d :: (if handlerOk then [setFailed d] else [])
  | some .duringEnrichment =>
    d :: setProcessing d :: (if handlerOk then [setFailed (setProcessing d)] else [])
  | some .atCompletion =>
    d :: setProcessing d :: (if handlerOk then [setFailed (setProcessing d)] else [])

/-- The status trace of the background task. -/
def statusTrace (d : Doc) (t : Nat) (fail : Option BgFailure) (handlerOk : Bool) :
    List DocStatus :=
  (backgroundTrace d t fail handlerOk).map Doc.status

/-- The specification's transition relation: `pending → processing`,
`processing → completed|failed`, nothing else. -/
def specForward (a b : DocStatus) : Bool :=
  (a = .pending ∧ b = .processing) ∨
    (a = .processing ∧ (b = .completed ∨ b = .failed))

/-- The transition relation the code actually guarantees: additionally
`pending → failed`, when the task raises before the `processing` update
commits. -/
def codeForward (a b : DocStatus) : Bool :=
  (a = .pending ∧ (b = .processing ∨ b = .failed)) ∨
    (a = .processing ∧ (b = .completed ∨ b = .failed))

/-- Does every adjacent pair of the trace satisfy the step relation? -/
def chainOk (step : DocStatus → DocStatus → Bool) : List DocStatus → Bool
  | [] => true
  | [_] => true
  | a :: b :: rest => step a b && chainOk step (b :: rest)

/-! ## FHIR bundle mapper (src/backend/ingestion-service/routers/fhir.py) -/

/-- Python `value.get(key)` on a JSON value: a key lookup on a dict, an
`AttributeError` on anything else. -/
def jGet (j : Json) (key : String) : Except String (Option Json) :=
  match j with
  | .obj fs => .ok (assocLookup key fs)
  | _ => .error "AttributeError: get"

/-- Python `value.get(key, default)` on a JSON value. -/
def jGetD (j : Json) (key : String) (dflt : Json) : Except String Json :=
  (jGet j key).map (fun o => o.getD dflt)

/-- Python `j == "lit"` for a JSON value: equal only to the same string. -/
def isStrEq (j : Json) (s : String) : Bool :=
  match j with
  | .str t => t = s
  | _ => false

/-- Python `j == n` for a JSON value against an int literal (Python bools
compare equal to 0/1). -/
def isNumEq (j : Json) (n : Int) : Bool :=
  match j with
  | .num m => m = n
  | .bool b => (b ∧ n = 1) ∨ (¬b ∧ n = 0)
  | _ => false

/-- Python f-string rendering of a scalar JSON value.  Container values are
rendered empty here; no claim exercises them. -/
def pyFmt : Json → String
  | .str s => s
  | .num n => toString n
  | .bool true => "True"
  | .bool false => "False"
  | .null => "None"
  | .arr _ => ""
  | .obj _ => ""

/-- `str.startswith` on strings. -/
def startsWithS (s pre : String) : Bool :=
  startsWithL s.toList pre.toList

/-- `_extract_patient_reference`: empty for a falsy subject, else the
`reference` with a `Patient/` marker removed; a non-string reference raises
(`.startswith` on a non-string). -/
def extractPatientReference (subject : Json) : Except String String :=
  if ¬ subject.truthy then .ok ""
  else do
    let r ← jGetD subject "reference" (.str "")
    match r with
    | .str s =>
      if startsWithS s "Patient/" then
        pure (String.mk (pyReplace "Patient/".toList [] s.toList))
      else pure ""
    | _ => .error "AttributeError: startswith"

/-- `_process_document_reference`: decode the first attachment's inline
base64 data (falling back to the raw text when decoding fails), reject
documents with no content or with only a URL, and insert a `pending`
document for the patient.  Raises (as a captured per-entry error) on any
dynamic-typing failure, exactly where the Python attribute access would. -/
def processDocumentReference (resource : Json) (patientId : Option String) (db : DB) :
    Except String (DB × Nat) := do
  let content ← jGetD resource "content" (.arr [])
  if ¬ content.truthy then throw "DocumentReference has no content"
  let first ← match content with
    | .arr (c :: _) => pure c
    | _ => throw "TypeError: not subscriptable"
  let attachment ← jGetD first "attachment" (.obj [])
  let data ← jGetD attachment "data" (.str "")
  if ¬ data.truthy then
    let url ← jGetD attachment "url" (.str "")
    if url.truthy then throw "Document URL fetching not implemented"
    else throw "No document content or URL provided"
  else
    let text ← match data with
      | .str s =>
        pure
          (match b64decode s.toList with
          | some bytes =>
            match utf8DecodeStr bytes with
            | some t => t
            | none => s
          | none => s)
      | _ => throw "validation error for DischargeSummaryCreate"
    let pid ← match patientId with
      | some p =>
        if p = "" then extractPatientReference ((← jGet resource "subject").getD .null)
        else pure p
      | none => extractPatientReference ((← jGet resource "subject").getD .null)
    let t ← jGetD resource "type" (.obj [])
    let coding ← jGetD t "coding" (.arr [.obj []])
    let c0 ← match coding with
      | .arr (c :: _) => pure c
      | .arr [] => throw "IndexError"
      | _ => throw "TypeError: not subscriptable"
    let _ ← jGetD c0 "display" (.str "discharge_summary")
    pure (insertDoc db (some pid) none text "fhir" none .pending)

/-- `_extract_frequency_from_timing`: reduce a FHIR timing structure to the
fixed frequency vocabulary, defaulting to `as directed` for a falsy timing
and to the `N times per P unit` rendering otherwise. -/
def extractFrequencyFromTiming (timing : Json) : Except String String :=
  if ¬ timing.truthy then pure "as directed"
  else do
    let rep ← jGetD timing "repeat" (.obj [])
    let frequency ← jGetD rep "frequency" (.num 1)
    let period ← jGetD rep "period" (.num 1)
    let periodUnit ← jGetD rep "periodUnit" (.str "d")
    if isStrEq periodUnit "d" ∧ isNumEq period 1 then
      if isNumEq frequency 1 then pure "once daily"
      else if isNumEq frequency 2 then pure "twice daily"
      else if isNumEq frequency 3 then pure "three times daily"
      else if isNumEq frequency 4 then pure "four times daily"
      else pure (pyFmt frequency ++ " times per " ++ pyFmt period ++ " " ++ pyFmt periodUnit)
    else pure (pyFmt frequency ++ " times per " ++ pyFmt period ++ " " ++ pyFmt periodUnit)

/-- `_process_medication_statement`: resolve the drug name and optional
RxNorm code from the first coding of the codeable concept (or mark the
medication unknown), derive dosage and frequency, link to the supplied
document id or to the patient's most recent document, creating a
placeholder document when none exists, and insert the medication row. -/
def processMedicationStatement (resource : Json) (patientId : Option String)
    (dischargeId : Option Nat) (db : DB) : Except String (DB × Nat) := do
  let mcc ← jGet resource "medicationCodeableConcept"
  let medication ← match mcc with
    | some v => if v.truthy then pure v else jGetD resource "medicationReference" (.obj [])
    | none => jGetD resource "medicationReference" (.obj [])
  let nameCode ← match medication with
    | .obj mfs =>
      match assocLookup "coding" mfs with
      | some codingVal => do
        let coding ←
          if ¬ codingVal.truthy then pure (Json.obj [])
          else match codingVal with
            | .arr (c :: _) => pure c
            | _ => throw "TypeError: not subscriptable"
        match coding with
        | .obj cfs => do
          let name ← match assocLookup "display" cfs with
            | some (.str s) => pure s
            | none => pure "Unknown medication"
            | some _ => throw "type error: medication_name"
          let code ←
            if (assocLookup "system" cfs).any (fun j => isStrEq j "http://www.nlm.nih.gov/research/umls/rxnorm") then
              match assocLookup "code" cfs with
              | some (.str s) => pure (some s)
              | none => pure none
              | some .null => pure none
              | some _ => throw "type error: rxnorm_code"
            else pure none
          pure (name, code)
        | _ => throw "AttributeError: get"
      | none => pure ("Unknown medication", (none : Option String))
    | .str _ => pure ("Unknown medication", none)
    | .arr _ => pure ("Unknown medication", none)
    | _ => throw "TypeError: argument not iterable"
  let dosageVal ← jGet resource "dosage"
  let dosageInfo ← match dosageVal.getD .null with
    | v =>
      if ¬ v.truthy then pure (Json.obj [])
      else match v with
        | .arr (d :: _) => pure d
        | _ => throw "TypeError: not subscriptable"
  let dar ← jGet dosageInfo "doseAndRate"
  let doseQuantity ← match dar.getD .null with
    | v =>
      if ¬ v.truthy then pure (Json.obj [])
      else match v with
        | .arr (d0 :: _) => jGetD d0 "doseQuantity" (.obj [])
        | _ => throw "TypeError: not subscriptable"
  let dosage ←
    if doseQuantity.truthy then do
      let v ← jGetD doseQuantity "value" (.str "")
      let u ← jGetD doseQuantity "unit" (.str "")
      pure (pyFmt v ++ " " ++ pyFmt u)
    else pure ""
  let timing ← jGetD dosageInfo "timing" (.obj [])
  let frequency ← extractFrequencyFromTiming timing
  let linked ← match dischargeId with
    | some i => pure (db, i)
    | none =>
      match mostRecentFor db.docs patientId with
      | some d => pure (db, d.id)
      | none =>
        pure (insertDoc db patientId none "FHIR medication data" "fhir" none .pending)
  pure (insertMed linked.1 linked.2 nameCode.1 dosage frequency nameCode.2)

/-- Scan `participant` entries for the first Practitioner actor
(`_process_appointment`'s provider loop). -/
def findProvider : List Json → Except String String
  | [] => pure "Unknown provider"
  | participant :: rest => do
    let actor ← jGetD participant "actor" (.obj [])
    let r ← jGetD actor "reference" (.str "")
    match r with
    | .str s =>
      if startsWithS s "Practitioner/" then
        match ← jGetD actor "display" (.str "Unknown provider") with
        | .str d => pure d
        | _ => throw "type error: provider_name"
      else findProvider rest
    | _ => throw "AttributeError: startswith"

/-- `_process_appointment`: resolve the appointment type (defaulting to
`follow_up`), the provider from the first Practitioner participant, and the
start time; link to the supplied document id, else to the patient's most
recent document when a patient id was given; with no linkable document the
entry fails — no placeholder document is created on this path. -/
def processAppointment (resource : Json) (patientId : Option String)
    (dischargeId : Option Nat) (db : DB) : Except String (DB × Nat) := do
  let at0 ← jGet resource "appointmentType"
  let apptType ← match at0.getD .null with
    | v =>
      if ¬ v.truthy then pure "follow_up"
      else do
        let coding ← jGetD v "coding" (.arr [.obj []])
        let c0 ← match coding with
          | .arr (c :: _) => pure c
          | .arr [] => throw "IndexError"
          | _ => throw "TypeError: not subscriptable"
        match ← jGetD c0 "display" (.str "follow_up") with
        | .str s => pure s
        | _ => throw "type error: appointment_type"
  let participants ← jGetD resource "participant" (.arr [])
  let provider ← match participants with
    | .arr l => findProvider l
    | .obj _ => throw "AttributeError: get"
    | .str _ => throw "AttributeError: get"
    | _ => throw "TypeError: not iterable"
  let start ← jGet resource "start"
  let apptDate ← match start.getD .null with
    | .str s => pure (some s)
    | v => if v.truthy then throw "AttributeError: replace" else pure (none : Option String)
  let did : Option Nat :=
    match dischargeId with
    | some i => some i
    | none =>
      match patientId with
      | some p =>
        if p = "" then none
        else (mostRecentFor db.docs patientId).map (fun d => d.id)
      | none => none
  match did with
  | none => throw "No discharge summary found for appointment"
  | some i => pure (insertAppt db i apptType provider apptDate)

/-- `_extract_patient_id` (`resource.get("id", "")`) as used by the
`Patient` bundle branch; a non-string id is treated as a raised type error
(the source would carry it into later SQL parameters instead). -/
def extractPatientId (resource : Json) : Except String String := do
  match ← jGetD resource "id" (.str "") with
  | .str s => pure s
  | _ => throw "type error: patient id"

/-- The running report of `process_fhir_bundle`: processed count, created
ids per kind, and the captured per-entry errors
(`resource_type`/`error` pairs). -/
structure BundleResults where
  processed : Nat
  documents : List String
  medications : List String
  appointments : List String
  errors : List (Json × String)

/-- The report before any entry is processed. -/
def emptyResults : BundleResults :=
  { processed := 0, documents := [], medications := [], appointments := [], errors := [] }

/-- The dispatch of one bundle entry's resource by `resourceType`
(unrecognised types fall through and still count as processed). -/
def bundleEntryBody (db : DB) (res : BundleResults) (pid : Option String)
    (resource : Json) (rt : Option Json) :
    Except String (DB × BundleResults × Option String) :=
  if (rt.map (fun j => isStrEq j "DocumentReference")).getD false then do
    let r ← processDocumentReference resource pid db
    let res2 :=
      if r.2 ≠ 0 then { res with documents := res.documents ++ [toString r.2] } else res
    pure (r.1, res2, pid)
  else if (rt.map (fun j => isStrEq j "MedicationStatement")).getD false then do
    let r ← processMedicationStatement resource pid none db
    let res2 :=
      if r.2 ≠ 0 then { res with medications := res.medications ++ [toString r.2] } else res
    pure (r.1, res2, pid)
  else if (rt.map (fun j => isStrEq j "Appointment")).getD false then do
    let r ← processAppointment resource pid none db
    let res2 :=
      if r.2 ≠ 0 then { res with appointments := res.appointments ++ [toString r.2] } else res
    pure (r.1, res2, pid)
  else if (rt.map (fun j => isStrEq j "Patient")).getD false then do
    let p ← extractPatientId resource
    pure (db, res, some p)
  else if (rt.map (fun j => isStrEq j "Encounter")).getD false then
    pure (db, res, pid)
  else
    pure (db, res, pid)

/-- One iteration of the entry loop of `process_fhir_bundle`: an exception
inside the body is captured as a `(resource_type, error)` record and the
loop continues — unless the entry's `resource` is not a JSON object, in
which case the error handler itself raises (`resource.get` on a non-dict)
and the whole bundle call aborts. -/
def bundleStep (st : DB × BundleResults × Option String) (entry : List (String × Json)) :
    Except String (DB × BundleResults × Option String) :=
  match (assocLookup "resource" entry).getD (.obj []) with
  | .obj rfs =>
    match bundleEntryBody st.1 st.2.1 st.2.2 (.obj rfs) (assocLookup "resourceType" rfs) with
    | .ok (db2, res2, pid2) =>
      .ok (db2, { res2 with processed := res2.processed + 1 }, pid2)
    | .error e =>
      .ok (st.1,
        { st.2.1 with errors :=
            st.2.1.errors ++ [((assocLookup "resourceType" rfs).getD (.str "unknown"), e)] },
        st.2.2)
  | _ => .error "AttributeError: get"

/-- `process_fhir_bundle`: fold the entry loop over the bundle, starting
from the caller-supplied patient id. -/
def processBundle (entries : List (List (String × Json))) (pid0 : Option String)
    (db : DB) : Except String (DB × BundleResults) := do
  let st ← entries.foldlM bundleStep (db, emptyResults, pid0)
  pure (st.1, st.2.1)

/-! ## Concrete scenarios used by the theorems below -/

/-- A freshly accepted document, as the upload handler inserts it. -/
def c1doc : Doc :=
  { id := 1, patient := none, admission := none, content := "", source := "file_upload",
    fileHash := none, status := .pending, processedAt := none }

/-- The resource of a bundle entry is a JSON object (or absent, defaulting
to the empty object) — the well-typedness condition under which the
per-entry error handler itself cannot raise. -/
def entryResourceOk (entry : List (String × Json)) : Prop :=
  ((assocLookup "resource" entry).getD (Json.obj [])).isObj = true

/-- Witness entries for C10: a `Patient` entry (processed, creating no
record) and a failing `DocumentReference` entry (one captured error). -/
def wTenEntries : List (List (String × Json)) :=
  [[("resource", Json.obj [("resourceType", Json.str "Patient"), ("id", Json.str "P9")])],
   [("resource", Json.obj [("resourceType", Json.str "DocumentReference")])]]

/-- The report of the C10 witness bundle. -/
def pairTen : DB × BundleResults :=
  (processBundle wTenEntries none dbEmpty).toOption.getD (dbEmpty, emptyResults)

/-- Fields of the scenario's DocumentReference (inline base64 `Tm90ZXM=`). -/
def c9docFields : List (String × Json) :=
  [("resourceType", Json.str "DocumentReference"),
   ("content", Json.arr [Json.obj [("attachment",
     Json.obj [("data", Json.str "Tm90ZXM=")])]])]

/-- Fields of the scenario's MedicationStatement (display `Aspirin`, code
`1191`). -/
def c9medFields : List (String × Json) :=
  [("resourceType", Json.str "MedicationStatement"),
   ("medicationCodeableConcept", Json.obj [("coding",
     Json.arr [Json.obj [("display", Json.str "Aspirin"), ("code", Json.str "1191")]])])]

/-- The scenario's DocumentReference resource. -/
def c9docRes : Json := Json.obj c9docFields

/-- The scenario's MedicationStatement resource. -/
def c9medRes : Json := Json.obj c9medFields

/-- The scenario's first bundle entry. -/
def c9entryDoc : List (String × Json) := [("resource", c9docRes)]

/-- The scenario's second bundle entry. -/
def c9entryMed : List (String × Json) := [("resource", c9medRes)]

/-- The document created by the scenario's DocumentReference. -/
def c9doc (p : String) : Doc :=
  { id := 1, patient := some p, admission := none, content := "Notes",
    source := "fhir", fileHash := none, status := .pending, processedAt := none }

/-- The store after the scenario's first entry. -/
def c9db1 (p : String) : DB := { docs := [c9doc p], meds := [], appts := [], next := 2 }

/-- The store after the whole scenario (patient id supplied). -/
def c9db2 (p : String) : DB :=
  { docs := [c9doc p],
    meds := [{ id := 2, docId := 1, name := "Aspirin", dosage := "",
               frequency := "as directed", rxnorm := none }],
    appts := [], next := 3 }

theorem foldl_pickBetter_firstMax :
    ∀ (l : List (List Char)) (a : List Char), FirstMax (a :: l) (l.foldl pickBetter a) := by
  intro l
  induction l with
  | nil =>
    intro a
    exact ⟨[], [], rfl, by simp, by simp⟩
  | cons x t ih =>
    intro a
    simp only [List.foldl_cons]
    by_cases hax : qualityScore a < qualityScore x
    · have hpb : pickBetter a x = x := by simp [pickBetter, hax]
      rw [hpb]
      rcases ih x with ⟨p, s, hps, hlt, hle⟩
      have hxr : qualityScore x ≤ qualityScore (t.foldl pickBetter x) :=
        hle x (List.mem_cons_self _ _)
      refine ⟨a :: p, s, ?_, ?_, ?_⟩
      · rw [List.cons_append, ← hps]
      · intro y hy
        rcases List.mem_cons.mp hy with rfl | h
        · exact lt_of_lt_of_le hax hxr
        · exact hlt y h
      · intro y hy
        rcases List.mem_cons.mp hy with rfl | h
        · exact le_of_lt (lt_of_lt_of_le hax hxr)
        · exact hle y h
    · have hpb : pickBetter a x = a := by simp [pickBetter, hax]
      rw [hpb]
      rcases ih a with ⟨p, s, hps, hlt, hle⟩
      have hxa : qualityScore x ≤ qualityScore a := le_of_not_lt hax
      cases p with
      | nil =>
        simp only [List.nil_append, List.cons.injEq] at hps
        obtain ⟨h1, h2⟩ := hps
        refine ⟨[], x :: t, by simp [← h1], by simp, ?_⟩
        intro y hy
        rcases List.mem_cons.mp hy with rfl | h
        · rw [← h1]
        · rcases List.mem_cons.mp h with rfl | h2
          · rw [← h1]
            exact hxa
          · exact hle y (List.mem_cons_of_mem _ h2)
      | cons a0 p2 =>
        simp only [List.cons_append, List.cons.injEq] at hps
        obtain ⟨ha0, ht⟩ := hps
        have har : qualityScore a < qualityScore (t.foldl pickBetter a) := by
          have := hlt a0 (List.mem_cons_self _ _)
          rwa [← ha0] at this
        refine ⟨a :: x :: p2, s, ?_, ?_, ?_⟩
        · simp only [List.cons_append]
          exact congrArg (List.cons a) (congrArg (List.cons x) ht)
        · intro y hy
          rcases List.mem_cons.mp hy with rfl | h
          · exact har
          · rcases List.mem_cons.mp h with rfl | h2
            · exact lt_of_le_of_lt hxa har
            · exact hlt y (List.mem_cons_of_mem _ h2)
        · intro y hy
          rcases List.mem_cons.mp hy with rfl | h
          · exact le_of_lt har
          · rcases List.mem_cons.mp h with rfl | h2
            · exact le_of_lt (lt_of_le_of_lt hxa har)
            · exact hle y (List.mem_cons_of_mem _ h2)

/-! ## Theorems: HL7 parsing (claim C4) -/

theorem segsOfVal_push (v : SegVal) (s : SegmentData) :
    segsOfVal (v.push s) = segsOfVal v ++ [s] := by
  cases v <;> simp [SegVal.push, segsOfVal]

theorem segsOf_insertSeg (m : List (String × SegVal)) (s : SegmentData) (t : String) :
    segsOf (insertSeg m s) t = segsOf m t ++ (if s.segType = t then [s] else []) := by
  induction m with
  | nil =>
    by_cases h : s.segType = t <;>
      simp [insertSeg, segsOf, lookupSeg, segsOfVal, h]
  | cons kv rest ih =>
    obtain ⟨k, v⟩ := kv
    simp only [insertSeg]
    by_cases hk : k = s.segType
    · rw [if_pos hk]
      by_cases ht : k = t
      · have hst : s.segType = t := hk.symm.trans ht
        simp [segsOf, lookupSeg, ht, hst, segsOfVal_push]
      · have hst : ¬ s.segType = t := fun h => ht (hk.trans h)
        simp [segsOf, lookupSeg, ht, hst]
    · rw [if_neg hk]
      by_cases ht : k = t
      · have hst : ¬ s.segType = t := fun h => hk (ht.trans h.symm)
        simp [segsOf, lookupSeg, ht, hst]
      · simp only [segsOf, lookupSeg, if_neg ht]
        simpa [segsOf] using ih

theorem segsOf_foldl_parseLineStep (lines : List String) :
    ∀ (m : List (String × SegVal)) (t : String),
      segsOf (lines.foldl parseLineStep m) t =
        segsOf m t ++
          (((lines.map stripS).filterMap parseSegment).filter
            (fun sd => sd.segType = t)) := by
  induction lines with
  | nil => intro m t; simp
  | cons line rest ih =>
    intro m t
    simp only [List.foldl_cons, List.map_cons, List.filterMap_cons]
    cases hp : parseSegment (stripS line) with
    | none =>
      simp only [parseLineStep, hp]
      exact ih m t
    | some sd =>
      simp only [parseLineStep, hp, List.filter_cons]
      rw [ih (insertSeg m sd) t, segsOf_insertSeg]
      by_cases hst : sd.segType = t
      · simp [hst]
      · simp [hst]

/-- Claim C4: for every input, HL7 `parse_message` returns a segment map
without raising (it is a total function into the map type): lines whose
stripped form is shorter than 3 characters (no type code) are dropped,
every other line yields a segment keyed by its first 3 characters, and
repeated segment types collapse into an ordered list under the type key in
message order — the segments stored under each key are exactly the parsed
kept lines of that type, in order, rather than only the last one. -/
theorem hl7_parse_segment_map :
    (∀ (content : String) (t : String),
      segsOf (parseMessage content) t =
        ((((splitOnS '\n' (stripS content)).map stripS).filterMap parseSegment).filter
          (fun sd => sd.segType = t)))
    ∧ (∀ (lines : List String) (t : String),
      segsOf (parseLines lines) t =
        (((lines.map stripS).filterMap parseSegment).filter
          (fun sd => sd.segType = t)))
    ∧ (∀ line : String, parseSegment line = none ↔ line.length < 3)
    ∧ (∀ (line : String) (sd : SegmentData), parseSegment line = some sd →
        sd.segType = takeS 3 line ∧ sd.raw = line) := by
  refine ⟨?_, ?_, ?_, ?_⟩
  · intro content t
    have h := segsOf_foldl_parseLineStep (splitOnS '\n' (stripS content)) [] t
    simpa [parseMessage, parseLines, segsOf, lookupSeg] using h
  · intro lines t
    have h := segsOf_foldl_parseLineStep lines [] t
    simpa [parseLines, segsOf, lookupSeg] using h
  · intro line
    constructor
    · intro h
      by_contra hlen
      simp [parseSegment, hlen] at h
    · intro h
      simp [parseSegment, h]
  · intro line sd h
    by_cases hlen : line.length < 3
    · simp [parseSegment, hlen] at h
    · simp only [parseSegment, hlen, if_false] at h
      cases h
      exact ⟨rfl, rfl⟩

/-- Witness for C4 at a concrete message: a two-character line is dropped
and two `DG1` segments collapse into an ordered list. -/
theorem hl7_parse_segment_map_witness :
    segsOf (parseLines ["DG1|1||I21.0|AMI||F", "ab", "DG1|2||E11.9|DM||F"]) "DG1" =
      [{ segType := "DG1", raw := "DG1|1||I21.0|AMI||F",
         props := [("set_id", "1"), ("diagnosis_code", "I21.0"),
                   ("diagnosis_description", "AMI"), ("diagnosis_type", "F")] },
       { segType := "DG1", raw := "DG1|2||E11.9|DM||F",
         props := [("set_id", "2"), ("diagnosis_code", "E11.9"),
                   ("diagnosis_description", "DM"), ("diagnosis_type", "F")] }]
    ∧ parseSegment "ab" = none ∧ (2 < 3 ∧ takeS 3 "DG1|x" = "DG1") := by
  refine ⟨?_, ?_, by decide, by decide⟩
  · rw [hl7_parse_segment_map.2.1]
    decide
  · exact (hl7_parse_segment_map.2.2.1 "ab").mpr (by decide)

/-! ## Theorems: PDF extractor selection (claim C3) -/

/-- Claim C3: for every PDF input (given as the outcomes of the trial
methods in the fixed order), extraction returns the text of the candidate
whose quality score is maximal among the methods that yielded non-empty
text, ties broken in favour of the earlier method; if every method raised
or yielded empty text, extraction fails with an error. -/
theorem pdf_extract_first_max (methodResults : List (Option (List Char))) :
    (candidatesOf methodResults = [] →
      extractText methodResults = .error "Unable to extract text from PDF using any method")
    ∧ (∀ text, extractText methodResults = .ok text →
        FirstMax (candidatesOf methodResults) text) := by
  constructor
  · intro h
    simp [extractText, h]
  · intro text h
    cases hc : candidatesOf methodResults with
    | nil => simp [extractText, hc] at h
    | cons c cs =>
      simp only [extractText, hc] at h
      cases h
      exact hc ▸ foldl_pickBetter_firstMax cs c

/-- Witness for C3 at concrete trial outcomes: one method raised, two
yielded text, the medical-term-bearing candidate scores highest and is
returned. -/
theorem pdf_extract_first_max_witness :
    FirstMax (candidatesOf [some "ab".toList, none, some "A patient file.".toList])
      "A patient file.".toList :=
  (pdf_extract_first_max [some "ab".toList, none, some "A patient file.".toList]).2
    "A patient file.".toList (by with_unfolding_all rfl)

/-! ## Theorems: abbreviation expansion (claim C6) -/

theorem lookup_mem_pairs :
    ∀ (l : List (String × String)) (a b : String), l.lookup a = some b → (a, b) ∈ l := by
  intro l
  induction l with
  | nil => intro a b h; simp [List.lookup] at h
  | cons kv rest ih =>
    intro a b h
    obtain ⟨k, v⟩ := kv
    by_cases hk : a = k
    · subst hk
      simp [List.lookup] at h
      simp [h]
    · have hne : (a == k) = false := beq_false_of_ne hk
      simp only [List.lookup, hne] at h
      exact List.mem_cons_of_mem _ (ih a b h)

theorem table_keys_facts :
    ∀ p ∈ medicalAbbreviations,
      toLowerL p.1.toList = p.1.toList ∧
      (∀ c ∈ p.1.toList, ¬ c ∈ abbrevPunct) ∧
      isAlphaC (p.1.toList.headD '0') = true ∧
      isLowerC (p.1.toList.headD '0') = true ∧
      p.1.toList ≠ [] ∧
      p.1.toList.any isLowerC = true := by decide

theorem punct_facts :
    ∀ c ∈ abbrevPunct,
      lowerC c = c ∧ isAlphaC c = false ∧ isUpperC c = false ∧ isLowerC c = false := by
  decide

theorem dropLeading_append_all {set : List Char} :
    ∀ (l r : List Char), (∀ c ∈ l, c ∈ set) →
      dropLeading set (l ++ r) = dropLeading set r := by
  intro l
  induction l with
  | nil => intro r _; rfl
  | cons c rest ih =>
    intro r h
    have hc : c ∈ set := h c (List.mem_cons_self _ _)
    simp only [List.cons_append, dropLeading, hc, if_pos]
    exact ih r (fun x hx => h x (List.mem_cons_of_mem _ hx))

theorem dropLeading_head_not {set : List Char} (c : Char) (rest : List Char)
    (h : ¬ c ∈ set) : dropLeading set (c :: rest) = c :: rest := by
  simp [dropLeading, h]

theorem cleanWord_decomp (pre suf kl : List Char)
    (hpre : ∀ c ∈ pre, c ∈ abbrevPunct) (hsuf : ∀ c ∈ suf, c ∈ abbrevPunct)
    (hlow : toLowerL kl = kl) (hknp : ∀ c ∈ kl, ¬ c ∈ abbrevPunct)
    (hne : kl ≠ []) :
    cleanWord (pre ++ (kl ++ suf)) = kl := by
  have hlowPre : toLowerL pre = pre := by
    apply List.map_congr_left ?_ |>.trans (List.map_id pre)
    intro c hc
    exact (punct_facts c (hpre c hc)).1
  have hlowSuf : toLowerL suf = suf := by
    apply List.map_congr_left ?_ |>.trans (List.map_id suf)
    intro c hc
    exact (punct_facts c (hsuf c hc)).1
  have hmap : toLowerL (pre ++ (kl ++ suf)) = pre ++ (kl ++ suf) := by
    simp only [toLowerL, List.map_append] at *
    rw [hlowPre, hlow, hlowSuf]
  unfold cleanWord
  rw [hmap]
  unfold pyStripChars
  obtain ⟨k0, kl', rfl⟩ : ∃ k0 kl', kl = k0 :: kl' := by
    cases kl with
    | nil => exact absurd rfl hne
    | cons a b => exact ⟨a, b, rfl⟩
  rw [dropLeading_append_all pre _ hpre]
  have h1 : dropLeading abbrevPunct ((k0 :: kl') ++ suf) = (k0 :: kl') ++ suf := by
    rw [List.cons_append]
    exact dropLeading_head_not _ _ (hknp k0 (List.mem_cons_self _ _))
  rw [h1, List.reverse_append]
  rw [dropLeading_append_all _ _ (fun c hc => hsuf c (List.mem_reverse.mp hc))]
  cases hrev : (k0 :: kl').reverse with
  | nil => exact absurd (List.reverse_eq_nil_iff.mp hrev) (by simp)
  | cons d drest =>
    have hd : d ∈ (k0 :: kl') := by
      rw [← List.mem_reverse, hrev]
      exact List.mem_cons_self _ _
    rw [dropLeading_head_not _ _ (hknp d hd), ← hrev, List.reverse_reverse]

theorem startsWithL_append_self : ∀ (l r : List Char), startsWithL (l ++ r) l = true := by
  intro l
  induction l with
  | nil => intro r; cases r <;> rfl
  | cons c rest ih => intro r; simp [startsWithL, List.cons_append, ih]

theorem startsWithL_punct_alpha (c : Char) (s : List Char) (k0 : Char) (ks : List Char)
    (hc : c ∈ abbrevPunct) (hk : isAlphaC k0 = true) :
    startsWithL (c :: s) (k0 :: ks) = false := by
  have hne : c ≠ k0 := by
    intro h
    rw [h] at hc
    have := (punct_facts k0 hc).2.1
    rw [this] at hk
    exact Bool.false_ne_true hk
  simp [startsWithL, hne]

theorem pyReplaceGo_all_punct (kl r : List Char) (k0 : Char) (ks : List Char)
    (hkl : kl = k0 :: ks) (hk : isAlphaC k0 = true) :
    ∀ (suf : List Char) (fuel : Nat), (∀ c ∈ suf, c ∈ abbrevPunct) →
      pyReplaceGo kl r fuel suf = suf := by
  intro suf
  induction suf with
  | nil => intro fuel _; cases fuel <;> rfl
  | cons c rest ih =>
    intro fuel h
    cases fuel with
    | zero => rfl
    | succ n =>
      have hsw : startsWithL (c :: rest) kl = false := by
        rw [hkl]
        exact startsWithL_punct_alpha c rest k0 ks (h c (List.mem_cons_self _ _)) hk
      simp only [pyReplaceGo, hsw, Bool.false_eq_true, if_false]
      rw [ih n (fun x hx => h x (List.mem_cons_of_mem _ hx))]

theorem pyReplaceGo_over_punct (kl r : List Char) (k0 : Char) (ks : List Char)
    (hkl : kl = k0 :: ks) (hk : isAlphaC k0 = true) :
    ∀ (pre : List Char) (rest : List Char) (fuel : Nat), (∀ c ∈ pre, c ∈ abbrevPunct) →
      pyReplaceGo kl r (pre.length + fuel) (pre ++ rest) =
        pre ++ pyReplaceGo kl r fuel rest := by
  intro pre
  induction pre with
  | nil => intro rest fuel _; simp
  | cons c p ih =>
    intro rest fuel h
    have hlen : (c :: p).length + fuel = (p.length + fuel) + 1 := by
      simp [List.length_cons]
      omega
    rw [hlen]
    have hsw : startsWithL (c :: (p ++ rest)) kl = false := by
      rw [hkl]
      exact startsWithL_punct_alpha _ _ k0 ks (h c (List.mem_cons_self _ _)) hk
    simp only [List.cons_append, pyReplaceGo, List.append_eq]
    rw [hsw]
    simp only [Bool.false_eq_true, if_false]
    rw [ih rest fuel (fun x hx => h x (List.mem_cons_of_mem _ hx))]

theorem occursIn_nil_left : ∀ s : List Char, occursIn [] s = true := by
  intro s
  cases s with
  | nil => rfl
  | cons c rest => simp [occursIn, startsWithL]

theorem pyReplaceGo_no_occurrence (kl r : List Char) :
    ∀ (s : List Char) (fuel : Nat), occursIn kl s = false →
      pyReplaceGo kl r fuel s = s := by
  intro s
  induction s with
  | nil => intro fuel _; cases fuel <;> rfl
  | cons c rest ih =>
    intro fuel h
    simp only [occursIn, Bool.or_eq_false_iff] at h
    cases fuel with
    | zero => rfl
    | succ n =>
      simp only [pyReplaceGo, h.1, Bool.false_eq_true, if_false]
      rw [ih n h.2]

theorem expandWord_not_in_table (w : List Char)
    (h : abbrevLookup (cleanWord w) = none) : expandWord w = w := by
  simp [expandWord, h]

theorem expandWord_no_occurrence (w : List Char)
    (h : occursIn (cleanWord w) w = false) : expandWord w = w := by
  rw [expandWord]
  cases hl : abbrevLookup (cleanWord w) with
  | none => rfl
  | some repl =>
    have hne : cleanWord w ≠ [] := by
      intro hz
      rw [hz, occursIn_nil_left] at h
      simp at h
    show (if (cleanWord w).isEmpty = true then w
      else pyReplaceGo (cleanWord w) (caseAdjust w repl.toList) w.length w) = w
    rw [if_neg (by simpa using hne)]
    exact pyReplaceGo_no_occurrence _ _ w w.length h

theorem lower_not_upper (c : Char) (h : isLowerC c = true) : isUpperC c = false := by
  simp only [isLowerC, decide_eq_true_eq] at h
  simp only [isUpperC, decide_eq_false_iff_not]
  intro hu
  have : ('a' : Char) ≤ 'Z' := le_trans h.1 hu.2
  exact absurd this (by decide)

theorem titleScan_punct :
    ∀ (pre l : List Char), (∀ c ∈ pre, c ∈ abbrevPunct) →
      pyIsTitleScan false (pre ++ l) = pyIsTitleScan false l := by
  intro pre
  induction pre with
  | nil => intro l _; rfl
  | cons c p ih =>
    intro l h
    have hc := punct_facts c (h c (List.mem_cons_self _ _))
    simp only [List.cons_append, pyIsTitleScan, hc.2.2.1, hc.2.2.2,
      Bool.false_eq_true, if_false]
    exact ih l (fun x hx => h x (List.mem_cons_of_mem _ hx))

theorem expandWord_lowercase (pre suf kl : List Char) (repl : String)
    (hpre : ∀ c ∈ pre, c ∈ abbrevPunct) (hsuf : ∀ c ∈ suf, c ∈ abbrevPunct)
    (hlk : abbrevLookup kl = some repl) :
    expandWord (pre ++ (kl ++ suf)) = pre ++ (repl.toList ++ suf) := by
  have hmem : (String.mk kl, repl) ∈ medicalAbbreviations := lookup_mem_pairs _ _ _ hlk
  have hfacts := table_keys_facts _ hmem
  have hklt : (String.mk kl).toList = kl := rfl
  rw [hklt] at hfacts
  obtain ⟨hlow, hknp, hhead, hheadLow, hne, hanyLow⟩ := hfacts
  obtain ⟨k0, ks, rfl⟩ : ∃ k0 ks, kl = k0 :: ks := by
    cases kl with
    | nil => exact absurd rfl hne
    | cons a b => exact ⟨a, b, rfl⟩
  simp only [List.headD_cons] at hhead hheadLow
  have hclean : cleanWord (pre ++ ((k0 :: ks) ++ suf)) = k0 :: ks :=
    cleanWord_decomp pre suf _ hpre hsuf hlow hknp hne
  simp only [expandWord, hclean, hlk]
  have hupper : pyIsUpper (pre ++ ((k0 :: ks) ++ suf)) = false := by
    have hany : (pre ++ ((k0 :: ks) ++ suf)).any isLowerC = true := by
      simp only [List.any_append, hanyLow]
      simp
    simp only [pyIsUpper, hany, Bool.not_true, Bool.and_false]
  have htitle : pyIsTitle (pre ++ ((k0 :: ks) ++ suf)) = false := by
    have hscan : pyIsTitleScan false (pre ++ ((k0 :: ks) ++ suf)) = false := by
      rw [titleScan_punct pre _ hpre]
      simp only [List.cons_append, pyIsTitleScan, lower_not_upper k0 hheadLow,
        hheadLow, Bool.false_eq_true, if_false, if_true, Bool.false_and]
    simp only [pyIsTitle, hscan, Bool.and_false]
  have hca : caseAdjust (pre ++ ((k0 :: ks) ++ suf)) repl.toList = repl.toList := by
    simp only [List.cons_append] at hupper htitle ⊢
    simp [caseAdjust, hupper, htitle]
  rw [hca]
  unfold pyReplace
  rw [if_neg (by simp)]
  have hflen : (pre ++ ((k0 :: ks) ++ suf)).length =
      pre.length + ((k0 :: ks) ++ suf).length := by simp
  rw [hflen, pyReplaceGo_over_punct _ _ k0 ks rfl hhead pre _ _ hpre]
  congr 1
  have hlen2 : ((k0 :: ks) ++ suf).length = (ks ++ suf).length + 1 := by simp
  rw [hlen2]
  have hsw : startsWithL (k0 :: (ks ++ suf)) (k0 :: ks) = true := by
    simpa [List.cons_append] using startsWithL_append_self (k0 :: ks) suf
  show pyReplaceGo (k0 :: ks) repl.toList ((ks ++ suf).length + 1) (k0 :: (ks ++ suf)) =
    repl.toList ++ suf
  simp only [pyReplaceGo, hsw, if_true]
  congr 1
  have hdrop : List.drop ((k0 :: ks).length - 1) (ks ++ suf) = suf := by
    have h1 : (k0 :: ks).length - 1 = ks.length := by simp
    rw [h1]
    exact List.drop_left ks suf
  rw [hdrop]
  exact pyReplaceGo_all_punct _ _ k0 ks rfl hhead suf _ hsuf

/-- Counterexample to claim C6: the all-caps token `DX` (whose cleaned form
`dx` is in the abbreviation table) is returned unchanged rather than being
expanded to the all-caps phrase `DIAGNOSIS`, because the substitution
targets the lowercased form, which does not occur in the token; likewise
the title-case `Dx` stays `Dx`. -/
theorem abbrev_case_counterexample :
    expandAbbreviationsS "DX" = "DX" ∧ expandAbbreviationsS "DX" ≠ "DIAGNOSIS" ∧
    expandAbbreviationsS "Dx" = "Dx" ∧ expandAbbreviationsS "Dx" ≠ "Diagnosis" ∧
    ("dx", "diagnosis") ∈ medicalAbbreviations := by decide

/-- Amended claim C6: abbreviation expansion works token by token on the
whitespace-split text; a token whose cleaned form is not in the table is
left unchanged; a token in which the lowercased cleaned form does not occur
(in particular any all-caps or title-case abbreviation) is also left
unchanged, the case-adjusted replacement notwithstanding; a lowercase
abbreviation with punctuation around it expands with the punctuation
preserved; and the specification's example sentence normalizes as stated. -/
theorem abbrev_expand_amended :
    (∀ text : List Char,
      expandAbbreviations text = List.intercalate [' '] ((splitWs text).map expandWord))
    ∧ (∀ w, abbrevLookup (cleanWord w) = none → expandWord w = w)
    ∧ (∀ w, occursIn (cleanWord w) w = false → expandWord w = w)
    ∧ (∀ pre suf kl repl, (∀ c ∈ pre, c ∈ abbrevPunct) → (∀ c ∈ suf, c ∈ abbrevPunct) →
        abbrevLookup kl = some repl →
        expandWord (pre ++ (kl ++ suf)) = pre ++ (repl.toList ++ suf))
    ∧ expandAbbreviationsS "Pt c/o pain, dx MI, rx ASA" =
        "Pt complains of pain, diagnosis MI, prescription ASA" :=
  ⟨fun _ => rfl, expandWord_not_in_table, expandWord_no_occurrence,
   expandWord_lowercase, by decide⟩

/-- Witness for the amended C6 at a concrete token: `,dx.` expands to
`,diagnosis.` with the punctuation preserved. -/
theorem abbrev_expand_amended_witness :
    expandWord (",".toList ++ ("dx".toList ++ ".".toList)) =
      ",".toList ++ ("diagnosis".toList ++ ".".toList) :=
  abbrev_expand_amended.2.2.2.1 ",".toList ".".toList "dx".toList "diagnosis"
    (by decide) (by decide) (by decide)

/-! ## Theorems: document status machine (claim C1) -/


/-- Counterexample to claim C1: when the background finalize task raises
before its `processing` update commits (for example the first connection
acquisition fails) and the error handler's own update succeeds, the
document moves `pending → failed` directly — `failed` is entered from a
state other than `processing`, violating the claimed transition relation. -/
theorem status_machine_counterexample :
    chainOk specForward (statusTrace c1doc 7 (some .beforeProcessing) true) = false ∧
    statusTrace c1doc 7 (some .beforeProcessing) true = [.pending, .failed] ∧
    specForward .pending .failed = false := by decide

/-- Amended claim C1: under the background finalize task, a document's
status only steps along `pending → processing → completed|failed` or
directly `pending → failed` (when the task raises before the `processing`
update commits); in particular no step leaves `completed` or `failed`, and
no step moves backwards to `pending`. -/
theorem status_machine_amended :
    (∀ (d : Doc) (t : Nat) (fail : Option BgFailure) (handlerOk : Bool),
      d.status = .pending →
      chainOk codeForward (statusTrace d t fail handlerOk) = true)
    ∧ (∀ a b : DocStatus, codeForward a b = true → a = .pending ∨ a = .processing)
    ∧ (∀ a b : DocStatus, codeForward a b = true → b ≠ .pending) := by
  refine ⟨?_, by intro a b; cases a <;> cases b <;> decide,
    by intro a b; cases a <;> cases b <;> decide⟩
  intro d t fail hok hd
  cases fail with
  | none =>
    simp [statusTrace, backgroundTrace, setProcessing, setCompleted, chainOk,
      codeForward, hd]
  | some f =>
    cases f <;> cases hok <;>
      simp [statusTrace, backgroundTrace, setProcessing, setCompleted, setFailed,
        chainOk, codeForward, hd]

/-- Witness for the amended C1: the failure-free run of the background task
on a pending document steps `pending → processing → completed`. -/
theorem status_machine_amended_witness :
    chainOk codeForward (statusTrace c1doc 7 none true) = true :=
  status_machine_amended.1 c1doc 7 none true rfl

/-! ## Theorems: txt extraction (claim C7) -/

/-- Counterexample to claim C7: a one-byte `txt` upload of `255` (passing
the extension and size checks) does not degrade to a best-effort decoding:
the strict UTF-8 decode raises and the upload fails with the generic
processing error. -/
theorem txt_decode_counterexample :
    uploadDocument dbEmpty "note.txt" [255] none none none ⟨[], .error ""⟩ =
      .error (.serverError "Error processing upload")
    ∧ utf8DecodeStr [255] = none
    ∧ extOf "note.txt" = "txt" ∧ (1 : Nat) ≤ maxFileSize := by
  exact ⟨by rfl, by rfl, by rfl, by decide⟩

/-- Amended claim C7: for a declared-`txt` upload passing the extension,
size and dedup checks, extraction succeeds exactly on valid UTF-8: valid
bytes insert a `pending` document holding the decoding, invalid bytes fail
the upload with the processing error. -/
theorem txt_decode_amended :
    ∀ (db : DB) (fn : String) (content : List Nat) (p adm src : Option String)
      (env : ExtractEnv),
      extOf fn = "txt" → content.length ≤ maxFileSize →
      (∀ d ∈ db.docs, d.fileHash ≠ some (sha256hex content)) →
      ((∀ s, utf8DecodeStr content = some s →
        uploadDocument db fn content p adm src env =
          .ok ({ db with
              docs := db.docs ++
                [{ id := db.next, patient := p, admission := adm, content := s,
                   source := sourceName src, fileHash := some (sha256hex content),
                   status := .pending, processedAt := none }],
              next := db.next + 1 }, db.next))
      ∧ (utf8DecodeStr content = none →
        uploadDocument db fn content p adm src env =
          .error (.serverError "Error processing upload"))) := by
  intro db fn content p adm src env hext hsize hfresh
  have hcontains : allowedFileTypes.contains (extOf fn) = true := by
    rw [hext]
    decide
  have hdup : db.docs.any (fun d => d.fileHash = some (sha256hex content)) = false := by
    simp only [List.any_eq_false, decide_eq_true_eq]
    exact hfresh
  have hnsize : ¬ maxFileSize < content.length := not_lt.mpr hsize
  constructor
  · intro s hs
    unfold uploadDocument
    rw [hcontains, hdup, hext]
    simp only [not_true, if_false, hnsize, Bool.false_eq_true]
    rw [show extractContent "txt" content env =
      (match utf8DecodeStr content with
       | some s => Except.ok s
       | none => Except.error "UnicodeDecodeError") from rfl, hs]
    rfl
  · intro hn
    unfold uploadDocument
    rw [hcontains, hdup, hext]
    simp only [not_true, if_false, hnsize, Bool.false_eq_true]
    rw [show extractContent "txt" content env =
      (match utf8DecodeStr content with
       | some s => Except.ok s
       | none => Except.error "UnicodeDecodeError") from rfl, hn]

/-- Witness for the amended C7: a valid one-byte `txt` upload inserts the
decoded document. -/
theorem txt_decode_amended_witness :
    uploadDocument dbEmpty "a.txt" [104] none none none ⟨[], .error ""⟩ =
      .ok ({ dbEmpty with
          docs := [{ id := 1, patient := none, admission := none, content := "h",
                     source := sourceName none, fileHash := some (sha256hex [104]),
                     status := .pending, processedAt := none }],
          next := 2 }, 1) :=
  (txt_decode_amended dbEmpty "a.txt" [104] none none none ⟨[], .error ""⟩
    rfl (by decide) (fun d hd => absurd hd (List.not_mem_nil d))).1 "h" rfl

/-! ## Theorems: appointment linkage (claim C8) -/

/-- Counterexample to claim C8: processing a minimal FHIR Appointment for a
patient with no stored documents fails with the missing-linkage error — no
placeholder document is created, unlike the medication path. -/
theorem appointment_no_placeholder_counterexample :
    processAppointment (Json.obj []) (some "P1") none dbEmpty =
      .error "No discharge summary found for appointment" ∧
    dbEmpty.docs = [] := ⟨rfl, rfl⟩

/-- Amended claim C8: with no supplied discharge document id, the
appointment mapper looks up the patient's most recent document only when a
truthy patient id was given, and when no document is found the entry fails
with `No discharge summary found for appointment` — it never creates a
placeholder; the medication mapper on the same store does create one. -/
theorem appointment_no_placeholder_amended :
    ∀ (db : DB) (p : Option String),
      mostRecentFor db.docs p = none →
      (processAppointment (Json.obj []) p none db =
        .error "No discharge summary found for appointment")
      ∧ (∃ db2 mid, processMedicationStatement (Json.obj []) p none db = .ok (db2, mid)
          ∧ db2.docs = db.docs ++
              [{ id := db.next, patient := p, admission := none,
                 content := "FHIR medication data", source := "fhir", fileHash := none,
                 status := .pending, processedAt := none }]
          ∧ db2.meds = db.meds ++
              [{ id := db.next + 1, docId := db.next, name := "Unknown medication",
                 dosage := "", frequency := "as directed", rxnorm := none }]) := by
  intro db p hmr
  constructor
  · cases p with
    | none => rfl
    | some q =>
      have hstep : processAppointment (Json.obj []) (some q) none db =
          (match (if q = "" then (none : Option Nat)
                  else (mostRecentFor db.docs (some q)).map (fun d => d.id)) with
           | none => Except.error "No discharge summary found for appointment"
           | some i => Except.ok (insertAppt db i "follow_up" "Unknown provider" none)) := rfl
      rw [hstep]
      by_cases hq : q = ""
      · rw [if_pos hq]
      · rw [if_neg hq, hmr]
        rfl
  · have hstep : processMedicationStatement (Json.obj []) p none db =
        (match mostRecentFor db.docs p with
         | some d => Except.ok (insertMed db d.id "Unknown medication" "" "as directed" none)
         | none =>
           Except.ok
             (insertMed (insertDoc db p none "FHIR medication data" "fhir" none .pending).1
               (insertDoc db p none "FHIR medication data" "fhir" none .pending).2
               "Unknown medication" "" "as directed" none)) := rfl
    rw [hstep, hmr]
    refine ⟨_, _, rfl, ?_, ?_⟩
    · simp [insertDoc, insertMed]
    · simp [insertDoc, insertMed]

/-- Witness for the amended C8 on the empty store. -/
theorem appointment_no_placeholder_amended_witness :
    processAppointment (Json.obj []) (some "P1") none dbEmpty =
      .error "No discharge summary found for appointment" :=
  (appointment_no_placeholder_amended dbEmpty (some "P1") rfl).1

/-! ## Theorems: upload deduplication (claim C2) -/

/-- Claim C2: after a successful upload, a second upload of the identical
bytes (under any allowed declared extension) fails with the duplicate
conflict before touching the store or the extractors, while an upload of
bytes with a different SHA-256 digest (not already stored) passes the
dedup check, succeeds whenever its extraction succeeds, and receives a
distinct document id. -/
theorem upload_dedup :
    ∀ (db : DB) (fn1 fn2 : String) (c1 c2 : List Nat) (p adm src : Option String)
      (env1 env2 env3 : ExtractEnv) (db1 : DB) (id1 : Nat),
      uploadDocument db fn1 c1 p adm src env1 = .ok (db1, id1) →
      (allowedFileTypes.contains (extOf fn2) = true →
        uploadDocument db1 fn2 c1 p adm src env2 =
          .error (.conflict "Document already exists in the system"))
      ∧ (∀ t2, allowedFileTypes.contains (extOf fn2) = true →
          c2.length ≤ maxFileSize →
          sha256hex c1 ≠ sha256hex c2 →
          (∀ d ∈ db.docs, d.fileHash ≠ some (sha256hex c2)) →
          extractContent (extOf fn2) c2 env3 = .ok t2 →
          ∃ db2 id2, uploadDocument db1 fn2 c2 p adm src env3 = .ok (db2, id2)
            ∧ id1 ≠ id2) := by
  intro db fn1 fn2 c1 c2 p adm src env1 env2 env3 db1 id1 h1
  unfold uploadDocument at h1
  split at h1
  · exact absurd h1 (by simp)
  · split at h1
    · exact absurd h1 (by simp)
    · split at h1
      · exact absurd h1 (by simp)
      · rename_i hext1 hsize1 hdup1
        split at h1
        · exact absurd h1 (by simp)
        · rename_i text hex1
          simp only [Except.ok.injEq] at h1
          have hdb1 : db1 = { db with
              docs := db.docs ++
                [{ id := db.next, patient := p, admission := adm, content := text,
                   source := sourceName src, fileHash := some (sha256hex c1),
                   status := .pending, processedAt := none }],
              next := db.next + 1 } := by
            have := congrArg Prod.fst h1
            simpa [insertDoc] using this.symm
          have hid1 : id1 = db.next := by
            have := congrArg Prod.snd h1
            simpa [insertDoc] using this.symm
          have hsize1' : ¬ maxFileSize < c1.length := hsize1
          constructor
          · intro hext2
            unfold uploadDocument
            have hany : db1.docs.any
                (fun d => d.fileHash = some (sha256hex c1)) = true := by
              rw [hdb1]
              simp
            rw [if_neg (not_not_intro hext2), if_neg hsize1', if_pos hany]
          · intro t2 hext2 hsize2 hne hfresh hex2
            have hany2 : db1.docs.any
                (fun d => d.fileHash = some (sha256hex c2)) = false := by
              rw [hdb1, List.any_eq_false]
              intro d hd
              rcases List.mem_append.mp hd with h | h
              · simpa using hfresh d h
              · have hd1 := List.mem_singleton.mp h
                subst hd1
                simp only [decide_eq_true_eq]
                intro hcontra
                exact hne (by injection hcontra)
            refine ⟨(insertDoc db1 p adm t2 (sourceName src)
                (some (sha256hex c2)) .pending).1,
              (insertDoc db1 p adm t2 (sourceName src) (some (sha256hex c2)) .pending).2,
              ?_, ?_⟩
            · unfold uploadDocument
              rw [if_neg (not_not_intro hext2), if_neg (not_lt.mpr hsize2),
                if_neg (by rw [hany2]; simp), hex2]
            · rw [hid1, hdb1]
              simp only [insertDoc]
              omega

set_option maxRecDepth 10000 in
/-- Witness for C2: uploading byte `104` as `a.txt` succeeds with id 1;
re-uploading the same byte as `b.txt` is rejected as a duplicate, and
uploading byte `105` instead succeeds with a fresh id. -/
theorem upload_dedup_witness :
    (uploadDocument
        (insertDoc dbEmpty none none "h" "file_upload" (some (sha256hex [104]))
          .pending).1
        "b.txt" [104] none none none ⟨[], .error ""⟩ =
      .error (.conflict "Document already exists in the system"))
    ∧ ∃ db2 id2,
        uploadDocument
          (insertDoc dbEmpty none none "h" "file_upload" (some (sha256hex [104]))
            .pending).1
          "b.txt" [105] none none none ⟨[], .error ""⟩ = .ok (db2, id2) ∧ 1 ≠ id2 := by
  have h := upload_dedup dbEmpty "a.txt" "b.txt" [104] [105] none none none
    ⟨[], .error ""⟩ ⟨[], .error ""⟩ ⟨[], .error ""⟩
    (insertDoc dbEmpty none none "h" "file_upload" (some (sha256hex [104])) .pending).1 1
    (by rfl)
  exact ⟨h.1 (by decide), h.2 "i" (by decide) (by decide) (by decide)
    (by simp [dbEmpty]) (by rfl)⟩

/-! ## Theorems: FHIR bundle error capture (claim C5) -/

theorem exceptBind_ok {α β ε : Type} (a : α) (f : α → Except ε β) :
    (Except.ok a : Except ε α) >>= f = f a := rfl

theorem exceptBind_err {α β ε : Type} (e : ε) (f : α → Except ε β) :
    (Except.error e : Except ε α) >>= f = .error e := rfl

theorem exceptPure_eq_ok {α ε : Type} (a : α) : (pure a : Except ε α) = .ok a := rfl


theorem bundleStep_ok_of_resourceOk (st : DB × BundleResults × Option String)
    (entry : List (String × Json)) (h : entryResourceOk entry) :
    ∃ st2, bundleStep st entry = .ok st2 := by
  unfold entryResourceOk at h
  obtain ⟨rfs, hres⟩ : ∃ rfs,
      (assocLookup "resource" entry).getD (Json.obj []) = Json.obj rfs := by
    cases hr : (assocLookup "resource" entry).getD (Json.obj []) <;>
      rw [hr] at h <;> simp [Json.isObj] at h
    · exact ⟨_, rfl⟩
  cases hb : bundleEntryBody st.1 st.2.1 st.2.2 (Json.obj rfs) (assocLookup "resourceType" rfs) with
  | ok v =>
    obtain ⟨vdb, vres, vpid⟩ := v
    refine ⟨(vdb, { vres with processed := vres.processed + 1 }, vpid), ?_⟩
    unfold bundleStep
    simp only [hres, hb]
  | error e =>
    refine ⟨(st.1,
      { st.2.1 with errors :=
          st.2.1.errors ++ [((assocLookup "resourceType" rfs).getD (.str "unknown"), e)] },
      st.2.2), ?_⟩
    unfold bundleStep
    simp only [hres, hb]

/-- Counterexample to claim C5: a bundle whose single entry carries
`"resource": null` makes the per-entry error handler itself raise
(`resource.get` on a non-dict), so the whole bundle call aborts instead of
capturing the failure and continuing. -/
theorem bundle_abort_counterexample :
    processBundle [[("resource", Json.null)]] none dbEmpty =
      .error "AttributeError: get" := rfl

/-- Amended claim C5: for every bundle whose entries' `resource` values are
JSON objects (or absent), a failure while processing an entry is captured
in the errors list and processing continues — `process_bundle` returns a
report and never aborts; an entry whose `resource` is not an object aborts
the whole bundle call instead. -/
theorem bundle_abort_amended :
    ∀ (entries : List (List (String × Json))) (pid : Option String) (db : DB),
      (∀ e ∈ entries, entryResourceOk e) →
      ∃ db2 r, processBundle entries pid db = .ok (db2, r) := by
  suffices h : ∀ (entries : List (List (String × Json)))
      (st : DB × BundleResults × Option String),
      (∀ e ∈ entries, entryResourceOk e) →
      ∃ st2, List.foldlM bundleStep st entries = .ok st2 by
    intro entries pid db hok
    obtain ⟨st2, hst⟩ := h entries (db, emptyResults, pid) hok
    refine ⟨st2.1, st2.2.1, ?_⟩
    unfold processBundle
    rw [hst]
    rfl
  intro entries
  induction entries with
  | nil => intro st _; exact ⟨st, rfl⟩
  | cons e rest ih =>
    intro st hok
    obtain ⟨st1, h1⟩ := bundleStep_ok_of_resourceOk st e (hok e (List.mem_cons_self _ _))
    obtain ⟨st2, h2⟩ := ih st1 (fun x hx => hok x (List.mem_cons_of_mem _ hx))
    refine ⟨st2, ?_⟩
    rw [List.foldlM_cons, h1, exceptBind_ok]
    exact h2

/-- Witness for the amended C5: a two-entry bundle whose first entry fails
(a DocumentReference with no content) still returns a report. -/
theorem bundle_abort_amended_witness :
    ∃ db2 r, processBundle
      [[("resource", Json.obj [("resourceType", Json.str "DocumentReference")])],
       [("resource", Json.obj [])]] none dbEmpty = .ok (db2, r) :=
  bundle_abort_amended
    [[("resource", Json.obj [("resourceType", Json.str "DocumentReference")])],
     [("resource", Json.obj [])]] none dbEmpty
    (by intro e he; fin_cases he <;> rfl)

/-! ## Theorems: FHIR bundle count invariant (claim C10) -/

theorem bundleEntryBody_counts (db : DB) (res : BundleResults) (pid : Option String)
    (resource : Json) (rt : Option Json) (db2 : DB) (res2 : BundleResults)
    (pid2 : Option String)
    (h : bundleEntryBody db res pid resource rt = .ok (db2, res2, pid2)) :
    res2.processed = res.processed ∧ res2.errors = res.errors := by
  unfold bundleEntryBody at h
  split at h
  · cases hx : processDocumentReference resource pid db with
    | error e => rw [hx, exceptBind_err] at h; exact absurd h (by simp)
    | ok r =>
      rw [hx, exceptBind_ok, exceptPure_eq_ok] at h
      simp only [Except.ok.injEq, Prod.mk.injEq] at h
      obtain ⟨-, h2, -⟩ := h
      rw [← h2]
      by_cases hz : r.2 ≠ 0 <;> simp [hz]
  · split at h
    · cases hx : processMedicationStatement resource pid none db with
      | error e => rw [hx, exceptBind_err] at h; exact absurd h (by simp)
      | ok r =>
        rw [hx, exceptBind_ok, exceptPure_eq_ok] at h
        simp only [Except.ok.injEq, Prod.mk.injEq] at h
        obtain ⟨-, h2, -⟩ := h
        rw [← h2]
        by_cases hz : r.2 ≠ 0 <;> simp [hz]
    · split at h
      · cases hx : processAppointment resource pid none db with
        | error e => rw [hx, exceptBind_err] at h; exact absurd h (by simp)
        | ok r =>
          rw [hx, exceptBind_ok, exceptPure_eq_ok] at h
          simp only [Except.ok.injEq, Prod.mk.injEq] at h
          obtain ⟨-, h2, -⟩ := h
          rw [← h2]
          by_cases hz : r.2 ≠ 0 <;> simp [hz]
      · split at h
        · cases hx : extractPatientId resource with
          | error e => rw [hx, exceptBind_err] at h; exact absurd h (by simp)
          | ok q =>
            rw [hx, exceptBind_ok, exceptPure_eq_ok] at h
            simp only [Except.ok.injEq, Prod.mk.injEq] at h
            obtain ⟨-, h2, -⟩ := h
            rw [← h2]
            exact ⟨rfl, rfl⟩
        · split at h
          · rw [exceptPure_eq_ok] at h
            simp only [Except.ok.injEq, Prod.mk.injEq] at h
            obtain ⟨-, h2, -⟩ := h
            rw [← h2]
            exact ⟨rfl, rfl⟩
          · rw [exceptPure_eq_ok] at h
            simp only [Except.ok.injEq, Prod.mk.injEq] at h
            obtain ⟨-, h2, -⟩ := h
            rw [← h2]
            exact ⟨rfl, rfl⟩

theorem bundleStep_count (st st2 : DB × BundleResults × Option String)
    (e : List (String × Json)) (h : bundleStep st e = .ok st2) :
    st2.2.1.processed + st2.2.1.errors.length =
      st.2.1.processed + st.2.1.errors.length + 1 := by
  unfold bundleStep at h
  cases hres : (assocLookup "resource" e).getD (Json.obj []) <;> simp only [hres] at h
  case obj rfs =>
    cases hb : bundleEntryBody st.1 st.2.1 st.2.2 (Json.obj rfs)
        (assocLookup "resourceType" rfs) with
    | ok v =>
      obtain ⟨vdb, vres, vpid⟩ := v
      simp only [hb, Except.ok.injEq] at h
      obtain ⟨hc, he⟩ := bundleEntryBody_counts _ _ _ _ _ _ _ _ hb
      have he2 : vres.errors.length = st.2.1.errors.length := by rw [he]
      rw [← h]
      simp only [List.length_cons]
      omega
    | error msg =>
      simp only [hb, Except.ok.injEq] at h
      rw [← h]
      simp only [List.length_append, List.length_cons, List.length_nil]
      omega
  all_goals exact absurd h (by simp)

/-- Claim C10: whenever `process_bundle` returns a report, each entry
contributed exactly one of a `processed_resources` increment or one
appended error record, so the processed count plus the number of captured
errors equals the number of bundle entries. -/
theorem bundle_count_invariant :
    ∀ (entries : List (List (String × Json))) (pid : Option String) (db db2 : DB)
      (r : BundleResults),
      processBundle entries pid db = .ok (db2, r) →
      r.processed + r.errors.length = entries.length := by
  suffices h : ∀ (entries : List (List (String × Json)))
      (st st2 : DB × BundleResults × Option String),
      List.foldlM bundleStep st entries = .ok st2 →
      st2.2.1.processed + st2.2.1.errors.length =
        st.2.1.processed + st.2.1.errors.length + entries.length by
    intro entries pid db db2 r hp
    unfold processBundle at hp
    cases hf : List.foldlM bundleStep (db, emptyResults, pid) entries with
    | error e =>
      rw [hf, exceptBind_err] at hp
      exact absurd hp (by simp)
    | ok st2 =>
      rw [hf, exceptBind_ok, exceptPure_eq_ok] at hp
      simp only [Except.ok.injEq, Prod.mk.injEq] at hp
      have hinv := h entries (db, emptyResults, pid) st2 hf
      rw [← hp.2]
      simpa [emptyResults] using hinv
  intro entries
  induction entries with
  | nil =>
    intro st st2 h
    have h' : (Except.ok st : Except String (DB × BundleResults × Option String)) =
        .ok st2 := h
    simp only [Except.ok.injEq] at h'
    rw [← h']
    simp
  | cons e rest ih =>
    intro st st2 h
    rw [List.foldlM_cons] at h
    cases h1 : bundleStep st e with
    | error msg =>
      rw [h1, exceptBind_err] at h
      exact absurd h (by simp)
    | ok st1 =>
      rw [h1, exceptBind_ok] at h
      have hc := bundleStep_count st st1 e h1
      have hr := ih st1 st2 h
      simp only [List.length_cons]
      omega


/-- Witness for C10: on the concrete two-entry bundle the returned report
satisfies the count identity. -/
theorem bundle_count_invariant_witness :
    pairTen.2.processed + pairTen.2.errors.length = wTenEntries.length :=
  bundle_count_invariant wTenEntries none dbEmpty pairTen.1 pairTen.2 (by rfl)

/-! ## Theorems: FHIR bundle scenario (claim C9) -/


/-- Counterexample to claim C9: with no patient id accompanying the bundle,
the medication lookup runs against a SQL `NULL` patient id, misses the
document just created from the DocumentReference, and creates a second
placeholder document to link the medication to — two documents are created
and the medication is linked to the placeholder (doc id 2), not the
`Notes` document (doc id 1), even though `processed_resources = 2` and no
errors are reported. -/
theorem fhir_scenario_counterexample :
    (processBundle [c9entryDoc, c9entryMed] none dbEmpty).toOption.map
      (fun pr => (pr.1.docs.map (fun d => (d.id, d.content)),
        pr.1.meds.map (fun m => (m.id, m.docId, m.name)),
        pr.2.processed, pr.2.errors.length))
      = some ([(1, "Notes"), (2, "FHIR medication data")], [(3, 2, "Aspirin")], 2, 0) := by
  rfl

theorem bundleStep_of_body_ok (st : DB × BundleResults × Option String)
    (entry : List (String × Json)) (rfs : List (String × Json))
    (hres : (assocLookup "resource" entry).getD (Json.obj []) = Json.obj rfs)
    (vdb : DB) (vres : BundleResults) (vpid : Option String)
    (hb : bundleEntryBody st.1 st.2.1 st.2.2 (Json.obj rfs)
      (assocLookup "resourceType" rfs) = .ok (vdb, vres, vpid)) :
    bundleStep st entry = .ok (vdb, { vres with processed := vres.processed + 1 }, vpid) := by
  unfold bundleStep
  simp only [hres, hb]


/-- Amended claim C9: when a patient id accompanies the bundle call (as the
repository's integration test supplies one), the scenario behaves as
claimed: exactly one document is created, holding the base64-decoded text
`Notes`, exactly one medication named `Aspirin` is created and linked to
that document, and the report shows two processed resources, that document
and that medication, and no errors.  Without a patient id the lookup that
links the medication misses the new document (claim C9's original reading
fails; see the counterexample). -/
theorem fhir_scenario_amended (p : String) :
    processBundle [c9entryDoc, c9entryMed] (some p) dbEmpty =
      .ok (c9db2 p,
        { processed := 2, documents := ["1"], medications := ["2"],
          appointments := [], errors := [] }) := by
  by_cases hp : p = ""
  · subst hp
    rfl
  · have hd : processDocumentReference c9docRes (some p) dbEmpty = .ok (c9db1 p, 1) := by
      unfold processDocumentReference
      simp only [if_neg hp]
      rfl
    have hb1 : bundleEntryBody dbEmpty emptyResults (some p) (Json.obj c9docFields)
        (assocLookup "resourceType" c9docFields) =
        .ok (c9db1 p,
          { processed := 0, documents := ["1"], medications := [],
            appointments := [], errors := [] }, some p) := by
      rw [show bundleEntryBody dbEmpty emptyResults (some p) (Json.obj c9docFields)
          (assocLookup "resourceType" c9docFields) =
        processDocumentReference c9docRes (some p) dbEmpty >>=
          (fun r => Except.ok (r.1,
            (if r.2 ≠ 0 then
              { emptyResults with documents := emptyResults.documents ++ [toString r.2] }
             else emptyResults), some p)) from rfl, hd, exceptBind_ok]
      show Except.ok (c9db1 p,
          (if (1 : Nat) ≠ 0 then
            { emptyResults with documents := emptyResults.documents ++ [toString (1 : Nat)] }
           else emptyResults), some p) = _
      rfl
    have h1 : bundleStep (dbEmpty, emptyResults, some p) c9entryDoc =
        .ok (c9db1 p,
          { processed := 1, documents := ["1"], medications := [],
            appointments := [], errors := [] }, some p) :=
      bundleStep_of_body_ok (dbEmpty, emptyResults, some p) c9entryDoc c9docFields rfl
        (c9db1 p)
        { processed := 0, documents := ["1"], medications := [],
          appointments := [], errors := [] } (some p) hb1
    have hmr : mostRecentFor (c9db1 p).docs (some p) = some (c9doc p) := by
      show mostRecentFor [c9doc p] (some p) = some (c9doc p)
      simp [mostRecentFor, sqlEqPatient, c9doc]
    have hmed : processMedicationStatement c9medRes (some p) none (c9db1 p) =
        .ok (c9db2 p, 2) := by
      unfold processMedicationStatement
      simp only [hmr]
      rfl
    have hb2 : bundleEntryBody (c9db1 p)
        { processed := 1, documents := ["1"], medications := [],
          appointments := [], errors := [] } (some p) (Json.obj c9medFields)
        (assocLookup "resourceType" c9medFields) =
        .ok (c9db2 p,
          { processed := 1, documents := ["1"], medications := ["2"],
            appointments := [], errors := [] }, some p) := by
      rw [show bundleEntryBody (c9db1 p)
          { processed := 1, documents := ["1"], medications := [],
            appointments := [], errors := ([] : List (Json × String)) } (some p)
          (Json.obj c9medFields) (assocLookup "resourceType" c9medFields) =
        processMedicationStatement c9medRes (some p) none (c9db1 p) >>=
          (fun r => Except.ok (r.1,
            (if r.2 ≠ 0 then
              { processed := 1, documents := ["1"],
                medications := [] ++ [toString r.2],
                appointments := ([] : List String),
                errors := ([] : List (Json × String)) }
             else
              { processed := 1, documents := ["1"], medications := [],
                appointments := [], errors := [] }), some p)) from rfl, hmed, exceptBind_ok]
      show Except.ok (c9db2 p,
          (if (2 : Nat) ≠ 0 then
            ({ processed := 1, documents := ["1"],
               medications := [] ++ [toString (2 : Nat)],
               appointments := ([] : List String),
               errors := ([] : List (Json × String)) } : BundleResults)
           else
            ({ processed := 1, documents := ["1"], medications := [],
               appointments := [], errors := [] } : BundleResults)), some p) = _
      rfl
    have h2 : bundleStep (c9db1 p,
        { processed := 1, documents := ["1"], medications := [],
          appointments := [], errors := [] }, some p) c9entryMed =
        .ok (c9db2 p,
          { processed := 2, documents := ["1"], medications := ["2"],
            appointments := [], errors := [] }, some p) :=
      bundleStep_of_body_ok (c9db1 p,
          { processed := 1, documents := ["1"], medications := [],
            appointments := [], errors := [] }, some p) c9entryMed c9medFields rfl
        (c9db2 p)
        { processed := 1, documents := ["1"], medications := ["2"],
          appointments := [], errors := [] } (some p) hb2
    unfold processBundle
    rw [List.foldlM_cons, h1, exceptBind_ok, List.foldlM_cons, h2, exceptBind_ok,
      List.foldlM_nil]
    rfl

/-- Witness for C9 at the integration test's patient id: the two-entry
bundle yields the claimed single document, single linked medication, and
clean two-resource report. -/
theorem fhir_scenario_amended_witness :
    processBundle [c9entryDoc, c9entryMed] (some "12345678") dbEmpty =
      .ok (c9db2 "12345678",
        { processed := 2, documents := ["1"], medications := ["2"],
          appointments := [], errors := [] }) :=
  fhir_scenario_amended "12345678"
